import Mathlib

/-!
Verification development for the bigimageviewer tile-paging engine.

This file gives a shallow embedding of the pyramid-image contract
(`bigimage.py`), its two adapters (`dzimage.py`, `liimage.py`) and the
viewport paging engine (`loadedimage.py`), and proves properties of the
embedded definitions.

Modelling conventions:
- Python integers are `Int`; all arithmetic is exact.
- `x_to_tile` in the source computes `int(x / tile_width + 0.0001)`;
  we model the float expression by its exact rational value, truncated
  toward zero, i.e. `Int.tdiv (10000 * x + tw) (10000 * tw)`.
- numpy pixel buffers are modelled as total functions `Int → Int → α`
  over (row, column); slice assignment becomes a function update on a
  rectangle, with numpy's copy semantics for overlapping source and
  destination (numpy buffers overlapping assignments).
- Python exceptions become `Except`/`Option` results; a `none` result
  of an engine operation marks the inputs on which the Python code
  raises an exception that the source does not itself catch.
- The engine reads image dimensions of registered zooms only (it clamps
  the zoom first), so the engine-facing image record exposes the
  dimension dictionaries and a totalized lookup with default 0.
-/

namespace Bigimageviewer

/-- Exact model of the Python exception kinds the code distinguishes.
Message strings are dropped; only the kind matters for the claims. -/
inductive PyErr where
  | fileFormatError : PyErr
  | zoomError : PyErr
  | attributeError : PyErr
  deriving DecidableEq, Repr

/-- `int(math.ceil(a / b))` for integers, exact for `b > 0`. -/
def ceil_div_int (a b : ℤ) : ℤ := Int.ediv (a + b - 1) b

/-- `BigImage.x_to_tile`: `int(x / tile_width + 0.0001)` with the float
expression taken at its exact rational value and truncated toward zero
(Python `int()`). -/
def x_to_tile (tile_width x : ℤ) : ℤ :=
  Int.tdiv (10000 * x + tile_width) (10000 * tile_width)

/-- `BigImage.y_to_tile`, same as `x_to_tile` with the tile height. -/
def y_to_tile (tile_height y : ℤ) : ℤ :=
  Int.tdiv (10000 * y + tile_height) (10000 * tile_height)

/-- A fetched tile pixel buffer: numpy array of shape (height, width),
pixels as a total function over (row, column). -/
structure TileBuf (α : Type) where
  height : ℤ
  width : ℤ
  pix : ℤ → ℤ → α

/-- A canvas pixel buffer (numpy array), as a total function
(row, column) → pixel. -/
abbrev Canvas (α : Type) := ℤ → ℤ → α

/-- The engine-facing pyramid-image record: the abstract methods of
`BigImage` that the paging engine in `loadedimage.py` calls. `load_tile`
returns the (already validated) tile buffer for an in-range tile;
`zero` is the zero pixel used by `np.zeros`. -/
structure BImg (α : Type) where
  tile_width : ℤ
  tile_height : ℤ
  min_zoom : ℤ
  max_zoom : ℤ
  zoom_to_width : ℤ → Option ℤ
  zoom_to_height : ℤ → Option ℤ
  zooms : List ℤ
  tile_start_x : ℤ → ℤ
  tile_start_y : ℤ → ℤ
  left_overlap : ℤ → ℤ
  top_overlap : ℤ → ℤ
  right_overlap : ℤ → ℤ → ℤ
  bottom_overlap : ℤ → ℤ → ℤ
  load_tile : ℤ → ℤ → ℤ → TileBuf α
  zero : α
  band_format : ℤ

/-- `image_width_for_zoom`, totalized: the engine only queries zooms it
has clamped into range, where the dictionary lookup succeeds; on an
unregistered zoom the Python code raises ZoomError instead. -/
def image_width_for_zoom_t {α : Type} (img : BImg α) (zoom : ℤ) : ℤ :=
  (img.zoom_to_width zoom).getD 0

/-- `image_height_for_zoom`, totalized like `image_width_for_zoom_t`. -/
def image_height_for_zoom_t {α : Type} (img : BImg α) (zoom : ℤ) : ℤ :=
  (img.zoom_to_height zoom).getD 0

/-- `BigImage.num_tiles_across`: `ceil(width/tile_width)`, floored at 1. -/
def num_tiles_across {α : Type} (img : BImg α) (zoom : ℤ) : ℤ :=
  max (ceil_div_int (image_width_for_zoom_t img zoom) img.tile_width) 1

/-- `BigImage.num_tiles_down`: `ceil(height/tile_height)`, floored at 1. -/
def num_tiles_down {α : Type} (img : BImg α) (zoom : ℤ) : ℤ :=
  max (ceil_div_int (image_height_for_zoom_t img zoom) img.tile_height) 1

/-- The loop body of `BigImage.fit_to_viewport`. The three `Option`
accumulators are the Python locals `z`, `width`, `height`, which keep
their previous values when a dictionary lookup raises ZoomError (the
loop catches ZoomError and continues); `none` means the local was never
assigned, so the fallback `return (z, width, height)` would raise
NameError, modelled as result `none`. -/
def fit_loop (zw zh : ℤ → Option ℤ) (vw vh : ℤ) :
    List ℤ → Option ℤ → Option ℤ → Option ℤ → Option (ℤ × ℤ × ℤ)
  | [], z?, w?, h? =>
    match z?, w?, h? with
    | some z, some w, some h => some (z, w, h)
    | _, _, _ => none
  | z :: rest, _, w?, h? =>
    match zw z with
    | none => fit_loop zw zh vw vh rest (some z) w? h?
    | some w =>
      match zh z with
      | none => fit_loop zw zh vw vh rest (some z) (some w) h?
      | some h =>
        if w ≤ vw ∧ h < vh then some (z, w, h)
        else fit_loop zw zh vw vh rest (some z) (some w) (some h)

/-- `BigImage.fit_to_viewport`: scan `zooms` (most zoomed in first),
return the first level whose width fits non-strictly and height fits
strictly; otherwise fall through to the values left over from the last
iteration. -/
def fit_to_viewport (zooms : List ℤ) (zw zh : ℤ → Option ℤ) (vw vh : ℤ) :
    Option (ℤ × ℤ × ℤ) :=
  fit_loop zw zh vw vh zooms none none none

/-- Modelled from the spec wording, for comparison with the code:
scan the zoom levels in the given order (most-zoomed-in first); return
the first level whose width is at most the viewport width and whose
height is strictly below the viewport height, together with its
dimensions; if no level satisfies this, return the last level scanned
(the most zoomed out) with its dimensions. -/
def fit_to_viewport_spec (w h : ℤ → ℤ) (vw vh : ℤ) :
    List ℤ → Option (ℤ × ℤ × ℤ)
  | [] => none
  | z :: rest =>
    if w z ≤ vw ∧ h z < vh then some (z, w z, h z)
    else
      match rest with
      | [] => some (z, w z, h z)
      | _ :: _ => fit_to_viewport_spec w h vw vh rest

section DZ

/-- Geometry parameters of a `DZImage` after a successful `open`:
uniform tile size, per-edge overlap, and the per-zoom dimension
dictionaries (taken as total functions; the geometry claims only
concern registered zooms). -/
structure DZGeom where
  tile_width : ℤ
  tile_height : ℤ
  overlap : ℤ
  zoom_to_width : ℤ → ℤ
  zoom_to_height : ℤ → ℤ

/-- `DZImage.num_tiles_across` (inherited from `BigImage`). -/
def dz_num_tiles_across (g : DZGeom) (zoom : ℤ) : ℤ :=
  max (ceil_div_int (g.zoom_to_width zoom) g.tile_width) 1

/-- `DZImage.num_tiles_down` (inherited from `BigImage`). -/
def dz_num_tiles_down (g : DZGeom) (zoom : ℤ) : ℤ :=
  max (ceil_div_int (g.zoom_to_height zoom) g.tile_height) 1

/-- `DZImage.tile_start_x` (without the unused `clip` flag): the tile's
left coordinate including the left overlap, which is absent on tile 0. -/
def dz_tile_start_x (g : DZGeom) (tile : ℤ) : ℤ :=
  tile * g.tile_width - (if tile = 0 then 0 else g.overlap)

/-- `DZImage.tile_start_y`. -/
def dz_tile_start_y (g : DZGeom) (tile : ℤ) : ℤ :=
  tile * g.tile_height - (if tile = 0 then 0 else g.overlap)

/-- `DZImage.left_overlap`. -/
def dz_left_overlap (g : DZGeom) (tile : ℤ) : ℤ :=
  if tile = 0 then 0 else g.overlap

/-- `DZImage.right_overlap`: zero on the last tile of the row. -/
def dz_right_overlap (g : DZGeom) (tile zoom : ℤ) : ℤ :=
  if tile = dz_num_tiles_across g zoom - 1 then 0 else g.overlap

/-- `DZImage.top_overlap`. -/
def dz_top_overlap (g : DZGeom) (tile : ℤ) : ℤ :=
  if tile = 0 then 0 else g.overlap

/-- `DZImage.bottom_overlap`: zero on the last tile of the column. -/
def dz_bottom_overlap (g : DZGeom) (tile zoom : ℤ) : ℤ :=
  if tile = dz_num_tiles_down g zoom - 1 then 0 else g.overlap

/-- `DZImage.tile_end_x_plus_one`: start plus tile width plus both
overlaps, trimmed to the image width at that zoom. -/
def dz_tile_end_x_plus_one (g : DZGeom) (tile zoom : ℤ) : ℤ :=
  let e := dz_tile_start_x g tile + g.tile_width
    + dz_left_overlap g tile + dz_right_overlap g tile zoom
  if e > g.zoom_to_width zoom then g.zoom_to_width zoom else e

/-- `DZImage.tile_end_y_plus_one`. -/
def dz_tile_end_y_plus_one (g : DZGeom) (tile zoom : ℤ) : ℤ :=
  let e := dz_tile_start_y g tile + g.tile_height
    + dz_top_overlap g tile + dz_bottom_overlap g tile zoom
  if e > g.zoom_to_height zoom then g.zoom_to_height zoom else e

/-- `BigImage.tile_width_at_zoom` for a `DZImage`. -/
def dz_tile_width_at_zoom (g : DZGeom) (tile zoom : ℤ) : ℤ :=
  dz_tile_end_x_plus_one g tile zoom - dz_tile_start_x g tile

/-- `BigImage.tile_height_at_zoom` for a `DZImage`. -/
def dz_tile_height_at_zoom (g : DZGeom) (tile zoom : ℤ) : ℤ :=
  dz_tile_end_y_plus_one g tile zoom - dz_tile_start_y g tile

/-- `DZImage.load_tile`, abstracted over the decoded tile file:
`fetched_h`/`fetched_w` are the dimensions of the image read with
`cv2.imread`; the result is the returned buffer shape. A shape that
differs from the computed geometry raises FileFormatError. -/
def dz_load_tile (g : DZGeom) (tilex tiley zoom fetched_h fetched_w : ℤ) :
    Except PyErr (ℤ × ℤ) :=
  let expected_width := dz_tile_width_at_zoom g tilex zoom
  let expected_height := dz_tile_height_at_zoom g tiley zoom
  if fetched_w ≠ expected_width ∨ fetched_h ≠ expected_height then
    Except.error PyErr.fileFormatError
  else
    Except.ok (fetched_h, fetched_w)

end DZ

section LI

/-- Geometry parameters of an `LIImage` after a successful `open`:
tile size and per-zoom dimensions; this format has no overlap. -/
structure LIGeom where
  tile_width : ℤ
  tile_height : ℤ
  zoom_to_width : ℤ → ℤ
  zoom_to_height : ℤ → ℤ

/-- `LIImage.num_tiles_across` (inherited from `BigImage`). -/
def li_num_tiles_across (g : LIGeom) (zoom : ℤ) : ℤ :=
  max (ceil_div_int (g.zoom_to_width zoom) g.tile_width) 1

/-- `LIImage.num_tiles_down` (inherited from `BigImage`). -/
def li_num_tiles_down (g : LIGeom) (zoom : ℤ) : ℤ :=
  max (ceil_div_int (g.zoom_to_height zoom) g.tile_height) 1

/-- `LIImage.tile_start_x` (without the unused `clip` flag). -/
def li_tile_start_x (g : LIGeom) (tile : ℤ) : ℤ := tile * g.tile_width

/-- `LIImage.tile_start_y`. -/
def li_tile_start_y (g : LIGeom) (tile : ℤ) : ℤ := tile * g.tile_height

/-- `LIImage.tile_end_x_plus_one`: start plus tile width, trimmed to
the image width at that zoom. -/
def li_tile_end_x_plus_one (g : LIGeom) (tile zoom : ℤ) : ℤ :=
  let e := li_tile_start_x g tile + g.tile_width
  if e > g.zoom_to_width zoom then g.zoom_to_width zoom else e

/-- `LIImage.tile_end_y_plus_one`. -/
def li_tile_end_y_plus_one (g : LIGeom) (tile zoom : ℤ) : ℤ :=
  let e := li_tile_start_y g tile + g.tile_height
  if e > g.zoom_to_height zoom then g.zoom_to_height zoom else e

/-- `BigImage.tile_width_at_zoom` for an `LIImage`. -/
def li_tile_width_at_zoom (g : LIGeom) (tile zoom : ℤ) : ℤ :=
  li_tile_end_x_plus_one g tile zoom - li_tile_start_x g tile

/-- `BigImage.tile_height_at_zoom` for an `LIImage`. -/
def li_tile_height_at_zoom (g : LIGeom) (tile zoom : ℤ) : ℤ :=
  li_tile_end_y_plus_one g tile zoom - li_tile_start_y g tile

/-- `LIImage.load_tile`, abstracted over the backend fetch:
`fetched_h`/`fetched_w` are the dimensions of the buffer returned by
`large_image`'s `getTile`; the result is the shape of the returned
buffer. When the backend hands back a full-size tile although the
trimmed geometry is smaller, the buffer is sliced to
`[0:expected_height, 0:expected_width]` (numpy slice: the resulting
extent is the minimum of the stop index and the buffer extent, valid
for non-negative stops); otherwise the buffer is returned unchanged.
No dimension check is performed and no exception is raised here. -/
def li_load_tile (g : LIGeom) (tilex tiley zoom fetched_h fetched_w : ℤ) :
    ℤ × ℤ :=
  let expected_width := li_tile_width_at_zoom g tilex zoom
  let expected_height := li_tile_height_at_zoom g tiley zoom
  if (fetched_w = g.tile_width ∧ expected_width < g.tile_width) ∨
      (fetched_h = g.tile_height ∧ expected_height < g.tile_height) then
    (min fetched_h expected_height, min fetched_w expected_width)
  else
    (fetched_h, fetched_w)

end LI

section DZOpen

/-- An XML attribute value as `DZImage.open` sees it: either a string
that `int()` accepts, or one it rejects with ValueError. -/
inductive AttrVal where
  | num : ℤ → AttrVal
  | nonNum : AttrVal
  deriving DecidableEq, Repr

/-- The parsed shape of a .dzi manifest relevant to `DZImage.open`:
presence and value of each attribute of the Image tag, and of the
optional Size tag. `none` = attribute absent. -/
structure DziXml where
  has_image_tag : Bool
  width : Option AttrVal
  height : Option AttrVal
  tile_size : Option AttrVal
  overlap : Option AttrVal
  has_format : Bool
  has_size_tag : Bool
  size_width : Option AttrVal
  size_height : Option AttrVal

/-- The numeric metadata `DZImage.open` stores on success. -/
structure DzMeta where
  width : ℤ
  height : ℤ
  overlap : ℤ
  tile_width : ℤ
  tile_height : ℤ
  deriving DecidableEq, Repr

/-- The metadata-parsing part of `DZImage.open` (lines 54-102 of
`dzimage.py`), on a fresh instance. `self._width` is assigned only when
the Width attribute (or the Size tag's Width) is present; the later
guard `if self._width is None` then reads an attribute that was never
assigned, so Python raises AttributeError before the intended
FileFormatError can be raised — modelled by `PyErr.attributeError`.
`int()` failures inside try/except ValueError become FileFormatError. -/
def dz_open_meta (x : DziXml) : Except PyErr DzMeta :=
  if ¬ x.has_image_tag then Except.error PyErr.fileFormatError
  else
    let w0 : Option AttrVal := x.width
    let h0 : Option AttrVal := x.height
    match x.tile_size with
    | none => Except.error PyErr.fileFormatError
    | some ts =>
      let ov : AttrVal := match x.overlap with
        | some v => v
        | none => AttrVal.num 0
      if ¬ x.has_format then Except.error PyErr.fileFormatError
      else
        let w1 : Option AttrVal := if x.has_size_tag then
            (match x.size_width with
             | some v => some v
             | none => w0)
          else w0
        let h1 : Option AttrVal := if x.has_size_tag then
            (match x.size_height with
             | some v => some v
             | none => h0)
          else h0
        match w1 with
        | none => Except.error PyErr.attributeError
        | some wv =>
          match h1 with
          | none => Except.error PyErr.attributeError
          | some hv =>
            match wv with
            | AttrVal.nonNum => Except.error PyErr.fileFormatError
            | AttrVal.num w =>
              match hv with
              | AttrVal.nonNum => Except.error PyErr.fileFormatError
              | AttrVal.num h =>
                match ov with
                | AttrVal.nonNum => Except.error PyErr.fileFormatError
                | AttrVal.num o =>
                  match ts with
                  | AttrVal.nonNum => Except.error PyErr.fileFormatError
                  | AttrVal.num t =>
                    Except.ok { width := w, height := h, overlap := o,
                                tile_width := t, tile_height := t }

end DZOpen

section Engine

/-- The mutable state of a `LoadedImage` (`loadedimage.py`): viewport
offsets in canvas and full-image coordinates, zoom, canvas extents and
origin, tile window, and the optional canvas pixel buffer (`_pixels`,
`None` before the first allocation). -/
structure LoadedImageState (α : Type) where
  viewport_x : ℤ
  viewport_y : ℤ
  viewport_width : ℤ
  viewport_height : ℤ
  extra_tiles : ℤ
  zoom : ℤ
  zoomed_image_width : Option ℤ
  zoomed_image_height : Option ℤ
  canvas_x : ℤ
  canvas_y : ℤ
  canvas_width : ℤ
  canvas_height : ℤ
  tiles_across_in_canvas : ℤ
  tiles_down_in_canvas : ℤ
  tile_xstart : ℤ
  tile_ystart : ℤ
  tile_xend : ℤ
  tile_yend : ℤ
  viewport_x_on_fullimage : ℤ
  viewport_y_on_fullimage : ℤ
  pixels : Option (Canvas α)

/-- The integers in `[a, b)`, in increasing order (Python `range`). -/
def int_range (a b : ℤ) : List ℤ :=
  (List.range (b - a).toNat).map (fun i : ℕ => a + (i : ℤ))

/-- The (tiley, tilex) pairs visited by the nested loops of
`_load_tiles`: rows `[ystart, yend)` outer, columns `[xstart, xend)`
inner, both increasing. -/
def tile_pairs (ys ye xs xe : ℤ) : List (ℤ × ℤ) :=
  (int_range ys ye).foldr
    (fun ty acc => ((int_range xs xe).map (fun tx => (ty, tx))) ++ acc) []

/-- Whether the loop body of `_load_tiles` actually loads tile
`t = (tiley, tilex)`: the tile must be inside the image's tile grid at
this zoom, and, when `skip` carries the previously loaded window
`(old_xstart, old_ystart, old_xend, old_yend)`, not inside it. -/
def tile_active {α : Type} (img : BImg α) (zoom : ℤ)
    (skip : Option (ℤ × ℤ × ℤ × ℤ)) (t : ℤ × ℤ) : Bool :=
  if t.1 < 0 ∨ t.1 ≥ num_tiles_down img zoom then false
  else if t.2 < 0 ∨ t.2 ≥ num_tiles_across img zoom then false
  else
    match skip with
    | none => true
    | some w => ¬(w.2.1 ≤ t.1 ∧ t.1 < w.2.2.2 ∧ w.1 ≤ t.2 ∧ t.2 < w.2.2.1)

/-- The canvas rectangle written for tile `t` by `_load_tiles` when the
window's top-left tile is `(xs, ys)`: the tile's slot offset plus its
overlap-trimmed extent (the numpy destination slice). -/
def tile_region {α : Type} (img : BImg α) (zoom xs ys : ℤ) (t : ℤ × ℤ)
    (y x : ℤ) : Prop :=
  let buf := img.load_tile t.2 t.1 zoom
  let ypos := img.tile_height * (t.1 - ys)
  let xpos := img.tile_width * (t.2 - xs)
  let endy := ypos + (buf.height - img.bottom_overlap t.1 zoom)
    - img.top_overlap t.1
  let endx := xpos + (buf.width - img.right_overlap t.2 zoom)
    - img.left_overlap t.2
  ypos ≤ y ∧ y < endy ∧ xpos ≤ x ∧ x < endx

instance {α : Type} (img : BImg α) (zoom xs ys : ℤ) (t : ℤ × ℤ)
    (y x : ℤ) : Decidable (tile_region img zoom xs ys t y x) := by
  unfold tile_region; infer_instance

/-- The pixel that `_load_tiles` writes at canvas point `(y, x)` when
copying tile `t`: the source slice starts at the top/left overlap. -/
def tile_value {α : Type} (img : BImg α) (zoom xs ys : ℤ) (t : ℤ × ℤ)
    (y x : ℤ) : α :=
  (img.load_tile t.2 t.1 zoom).pix
    (img.top_overlap t.1 + (y - img.tile_height * (t.1 - ys)))
    (img.left_overlap t.2 + (x - img.tile_width * (t.2 - xs)))

/-- The numpy assignment
`pixels[ypos:endy, xpos:endx] = img[starty:endy_t, startx:endx_t]`
for one tile, as a rectangle update of the canvas function. -/
def write_tile {α : Type} (img : BImg α) (zoom xs ys : ℤ) (t : ℤ × ℤ)
    (c : Canvas α) : Canvas α :=
  fun y x =>
    if tile_region img zoom xs ys t y x then tile_value img zoom xs ys t y x
    else c y x

/-- The pure canvas effect of `_load_tiles` over a list of tile
coordinates (used to reason about the `init_matrix=False` case, where
the canvas already exists). -/
def apply_tiles {α : Type} (img : BImg α) (zoom xs ys : ℤ)
    (skip : Option (ℤ × ℤ × ℤ × ℤ)) (l : List (ℤ × ℤ)) (c : Canvas α) :
    Canvas α :=
  l.foldl
    (fun c t =>
      if tile_active img zoom skip t then write_tile img zoom xs ys t c
      else c) c

/-- One iteration of the `_load_tiles` loops. State: the optional
canvas (`_pixels`), the `first` flag, and the list of tiles fetched so
far with `load_tile`. On the first loaded tile with `init_matrix=True`
a zero-filled canvas replaces `_pixels` before the copy. An
`init_matrix=False` write with `_pixels` absent would raise in Python;
the state is absorbed as `none`. -/
def load_tiles_step {α : Type} (img : BImg α) (zoom xs ys : ℤ)
    (init : Bool) (skip : Option (ℤ × ℤ × ℤ × ℤ))
    (st : Option (Canvas α) × Bool × List (ℤ × ℤ)) (t : ℤ × ℤ) :
    Option (Canvas α) × Bool × List (ℤ × ℤ) :=
  if tile_active img zoom skip t then
    let base : Option (Canvas α) :=
      if init ∧ st.2.1 then some (fun _ _ => img.zero) else st.1
    (base.map (write_tile img zoom xs ys t),
     (if init ∧ st.2.1 then false else st.2.1), st.2.2 ++ [t])
  else st

/-- `LoadedImage._load_tiles`: walk the tile window `(xs, ys)`–`(xe,
ye)`, load every in-grid tile not inside the `skip` window, and copy it
into the canvas at its slot. Returns the updated `_pixels` and the
list of tiles that were fetched with `load_tile`. -/
def load_tiles {α : Type} (img : BImg α) (zoom xs ys xe ye : ℤ)
    (init : Bool) (skip : Option (ℤ × ℤ × ℤ × ℤ))
    (c0 : Option (Canvas α)) : Option (Canvas α) × List (ℤ × ℤ) :=
  let r := (tile_pairs ys ye xs xe).foldl
    (load_tiles_step img zoom xs ys init skip) (c0, true, [])
  (r.1, r.2.2)

/-- The position clamp shared by `load_image` (lines 199-212) and the
head of `scroll_to` (lines 359-366): push the top-left back so the
viewport does not run past the zoomed image, then up to 0. -/
def clamp_pos (zdim vdim t : ℤ) : ℤ :=
  let t1 := if t + vdim ≥ zdim then zdim - vdim else t
  if t1 < 0 then 0 else t1

/-- The per-axis clip block of `scroll_to` (lines 384-408): returns the
corrected position and the `(clip_low, clip_high)` pair (clip_left and
clip_right for the x axis, clip_top and clip_bottom for y). -/
def scroll_clip_axis (zdim vdim p : ℤ) : ℤ × ℤ × ℤ :=
  let clip_high0 := if p + vdim > zdim then p + vdim - zdim else 0
  let p1 := if p + vdim > zdim then zdim - vdim else p
  let p2 := if p1 < 0 then 0 else p1
  let clip_low := if p1 < 0 then -p1 else 0
  let clip_high := if p1 < 0 then 0 else clip_high0
  (p2, clip_low, clip_high)

/-- The pre-clamp viewport x target of `load_image`: with a center
point, `centerx - int(viewport_width / 2)`, otherwise the current
position. -/
def precenter_x {α : Type} (s : LoadedImageState α)
    (center : Option (ℤ × ℤ)) : ℤ :=
  match center with
  | some c => c.1 - Int.ediv s.viewport_width 2
  | none => s.viewport_x_on_fullimage

/-- The pre-clamp viewport y target of `load_image`. -/
def precenter_y {α : Type} (s : LoadedImageState α)
    (center : Option (ℤ × ℤ)) : ℤ :=
  match center with
  | some c => c.2 - Int.ediv s.viewport_height 2
  | none => s.viewport_y_on_fullimage

/-- `LoadedImage.load_image`: reload the canvas from scratch at the
current zoom (or the fit-to-viewport zoom when zoom is -1), optionally
centering the viewport at `center`, clamping the viewport into the
image, recomputing the tile window and fetching every tile in it.
`none` marks the inputs on which the Python code raises (fit-to-
viewport falling through with no zoom ever registered). -/
def load_image {α : Type} (img : BImg α) (s : LoadedImageState α)
    (center : Option (ℤ × ℤ)) : Option (LoadedImageState α) :=
  if s.viewport_width = 0 ∨ s.viewport_height = 0 then some s
  else
    let ziw0 : Option ℤ := if s.zoom ≠ -1 then
        some (image_width_for_zoom_t img s.zoom) else s.zoomed_image_width
    let zih0 : Option ℤ := if s.zoom ≠ -1 then
        some (image_height_for_zoom_t img s.zoom) else s.zoomed_image_height
    let vx0 : ℤ := precenter_x s center
    let vy0 : ℤ := precenter_y s center
    let vx1 : ℤ := match ziw0 with
      | some zw => if vx0 + s.viewport_width ≥ zw then zw - s.viewport_width
        else vx0
      | none => vx0
    let vy1 : ℤ := match zih0 with
      | some zh => if vy0 + s.viewport_height ≥ zh then zh - s.viewport_height
        else vy0
      | none => vy0
    let vx2 : ℤ := if vx1 < 0 then 0 else vx1
    let vy2 : ℤ := if vy1 < 0 then 0 else vy1
    let fitr : Option (ℤ × ℤ × ℤ) := if s.zoom = -1 then
        fit_to_viewport img.zooms img.zoom_to_width img.zoom_to_height
          s.viewport_width s.viewport_height
      else some (s.zoom, ziw0.getD 0, zih0.getD 0)
    match fitr with
    | none => none
    | some (zoom1, ziw1, zih1) =>
      let tiles_across := ceil_div_int s.viewport_width img.tile_width
        + 2 * s.extra_tiles
      let tiles_down := ceil_div_int s.viewport_height img.tile_height
        + 2 * s.extra_tiles
      let txs := x_to_tile img.tile_width vx2 - s.extra_tiles
      let tys := y_to_tile img.tile_height vy2 - s.extra_tiles
      let txe := txs + tiles_across
      let tye := tys + tiles_down
      let cw := tiles_across * img.tile_width
      let ch := tiles_down * img.tile_height
      let pix1 := (load_tiles img zoom1 txs tys txe tye true none s.pixels).1
      some { s with
        zoom := zoom1,
        zoomed_image_width := some ziw1,
        zoomed_image_height := some zih1,
        viewport_x_on_fullimage := vx2,
        viewport_y_on_fullimage := vy2,
        tiles_across_in_canvas := tiles_across,
        tiles_down_in_canvas := tiles_down,
        tile_xstart := txs, tile_ystart := tys,
        tile_xend := txe, tile_yend := tye,
        canvas_width := cw, canvas_height := ch,
        canvas_x := img.tile_start_x txs, canvas_y := img.tile_start_y tys,
        pixels := pix1,
        viewport_x := vx2 - img.tile_start_x txs,
        viewport_y := vy2 - img.tile_start_y tys }

/-- The body of `scroll_to` after the early no-movement return (lines
374-492): update the viewport, clip it, recompute the tile window; if
the window is unchanged only the offsets move (returns `false`);
otherwise shift the retained canvas rectangle in place, load the tiles
not previously loaded, re-apply the clip correction and return `true`.
`tlx`/`tly` are already clamped. -/
def scroll_move {α : Type} (img : BImg α) (s : LoadedImageState α)
    (zw zh tlx tly : ℤ) : Option (Bool × LoadedImageState α) :=
  let xdiff := s.viewport_x_on_fullimage - tlx
  let ydiff := s.viewport_y_on_fullimage - tly
  let vx1 := s.viewport_x - xdiff
  let vy1 := s.viewport_y - ydiff
  let cax := scroll_clip_axis zw s.viewport_width tlx
  let cay := scroll_clip_axis zh s.viewport_height tly
  let px := cax.1
  let clip_left := cax.2.1
  let clip_right := cax.2.2
  let py := cay.1
  let clip_top := cay.2.1
  let clip_bottom := cay.2.2
  let nxs := x_to_tile img.tile_width px - s.extra_tiles
  let nys := y_to_tile img.tile_height py - s.extra_tiles
  let nxe := nxs + s.tiles_across_in_canvas
  let nye := nys + s.tiles_down_in_canvas
  if nxs = s.tile_xstart ∧ nys = s.tile_ystart ∧ nxe = s.tile_xend ∧
      nye = s.tile_yend then
    some (false,
      { s with viewport_x := vx1, viewport_y := vy1,
               viewport_x_on_fullimage := px,
               viewport_y_on_fullimage := py })
  else
    match s.pixels with
    | none => none
    | some pix =>
      let er := if nxs > s.tile_xstart then nxs - s.tile_xstart else 0
      let eb := if nys > s.tile_ystart then nys - s.tile_ystart else 0
      let el := if nxe < s.tile_xend then s.tile_xend - nxe else 0
      let et := if nye < s.tile_yend then s.tile_yend - nye else 0
      let copy_w := s.canvas_width - img.tile_width * (el + er)
      let copy_h := s.canvas_height - img.tile_height * (et + eb)
      let oldpy := img.tile_height * eb
      let newpy := img.tile_height * et
      let oldpx := img.tile_width * er
      let newpx := img.tile_width * el
      let vy2 := if eb > 0 then vy1 - img.tile_height * eb else vy1
      let vy3 := if et > 0 then vy2 + img.tile_height * et else vy2
      let vx2 := if er > 0 then vx1 - img.tile_width * er else vx1
      let vx3 := if el > 0 then vx2 + img.tile_width * el else vx2
      let shifted : Canvas α := fun y x =>
        if newpy ≤ y ∧ y < newpy + copy_h ∧ newpx ≤ x ∧ x < newpx + copy_w
        then pix (y - newpy + oldpy) (x - newpx + oldpx)
        else pix y x
      let lt := load_tiles img s.zoom nxs nys nxe nye false
        (some (s.tile_xstart, s.tile_ystart, s.tile_xend, s.tile_yend))
        (some shifted)
      let vx4 := if clip_left > 0 then vx3 + clip_left
        else if clip_right > 0 then vx3 - clip_right else vx3
      let vy4 := if clip_top > 0 then vy3 + clip_top
        else if clip_bottom > 0 then vy3 - clip_bottom else vy3
      some (true,
        { s with viewport_x := vx4, viewport_y := vy4,
                 viewport_x_on_fullimage := px,
                 viewport_y_on_fullimage := py,
                 tile_xstart := nxs, tile_ystart := nys,
                 tile_xend := nxe, tile_yend := nye,
                 pixels := lt.1 })

/-- `LoadedImage.scroll_to`: clamp the target, return `false` without
touching anything when the clamped target equals the current position,
otherwise hand over to the main body. `none` marks the inputs on which
the Python code raises (zoomed dimensions still `None`, i.e. scrolling
before any image was loaded, or a shift with `_pixels` still `None`). -/
def scroll_to {α : Type} (img : BImg α) (s : LoadedImageState α)
    (tlx0 tly0 : ℤ) : Option (Bool × LoadedImageState α) :=
  match s.zoomed_image_width, s.zoomed_image_height with
  | some zw, some zh =>
    let tlx := clamp_pos zw s.viewport_width tlx0
    let tly := clamp_pos zh s.viewport_height tly0
    if s.viewport_x_on_fullimage - tlx = 0 ∧
        s.viewport_y_on_fullimage - tly = 0 then
      some (false, s)
    else scroll_move img s zw zh tlx tly
  | _, _ => none

/-- `LoadedImage.scroll`: dragging by `(dx, dy)` scrolls to the
current position minus the drag. -/
def scroll {α : Type} (img : BImg α) (s : LoadedImageState α)
    (dx dy : ℤ) : Option (Bool × LoadedImageState α) :=
  scroll_to img s (s.viewport_x_on_fullimage - dx)
    (s.viewport_y_on_fullimage - dy)

/-- `LoadedImage.zoom_to`: no-op returning `false` when the target zoom
is out of the image's range or equal to the current zoom; otherwise
rescale the focus point to the target zoom by the power-of-two ratio
(shift left when zooming in, arithmetic shift right = floor division
when zooming out), set the zoom and do a full reload centered there. -/
def zoom_to {α : Type} (img : BImg α) (s : LoadedImageState α)
    (zoom centerx centery : ℤ) : Option (Bool × LoadedImageState α) :=
  if zoom < img.min_zoom ∨ zoom > img.max_zoom ∨ zoom = s.zoom then
    some (false, s)
  else
    let cx1 := centerx + s.viewport_x_on_fullimage
    let cy1 := centery + s.viewport_y_on_fullimage
    let zi := zoom - s.zoom
    let cx2 := if zi > 0 then cx1 * 2 ^ zi.toNat
      else Int.fdiv cx1 (2 ^ (-zi).toNat)
    let cy2 := if zi > 0 then cy1 * 2 ^ zi.toNat
      else Int.fdiv cy1 (2 ^ (-zi).toNat)
    (load_image img { s with zoom := zoom } (some (cx2, cy2))).map
      (fun st => (true, st))

/-- The QImage formats `to_qimage` can produce, with the canvas data it
wraps. The numeric code stands for the Qt format constant chosen from
the band format (0 = BGR888, 1 = RGB888, 2 = BGR32, 3 = ARGB32). -/
inductive QImageModel (α : Type) where
  | empty : QImageModel α
  | indexed8 : Canvas α → QImageModel α
  | formatted : ℤ → Canvas α → QImageModel α

/-- A `QRect` as x, y, width, height. -/
structure QRectModel where
  x : ℤ
  y : ℤ
  width : ℤ
  height : ℤ
  deriving DecidableEq, Repr

/-- `LoadedImage.to_qimage`: with no pixel buffer loaded, an empty
image and the zero rectangle; otherwise the visible rectangle plus a
QImage wrapping the canvas, chosen from the buffer's dtype
(`dtype_is_uint8`), dimensionality and channel count (runtime
attributes of the numpy array, passed explicitly here). `none` is the
`NotImplementedException` raised on unsupported layouts. -/
def to_qimage {α : Type} (img : BImg α) (s : LoadedImageState α)
    (dtype_is_uint8 : Bool) (ndims channels : ℤ) :
    Option (QImageModel α × QRectModel) :=
  match s.pixels with
  | none => some (QImageModel.empty, ⟨0, 0, 0, 0⟩)
  | some p =>
    let width := min s.viewport_width s.canvas_width
    let height := min s.viewport_height s.canvas_height
    let qrect : QRectModel := ⟨s.viewport_x, s.viewport_y, width, height⟩
    if dtype_is_uint8 then
      if ndims = 2 then some (QImageModel.indexed8 p, qrect)
      else if ndims = 3 ∧ channels = 3 then
        some (QImageModel.formatted (if img.band_format = 0 then 1 else 0) p,
          qrect)
      else if ndims = 3 ∧ channels = 4 then
        some (QImageModel.formatted (if img.band_format = 0 then 3 else 2) p,
          qrect)
      else none
    else none

end Engine

section Fixtures

/-- A small concrete pyramid image for evaluating the engine: 2×2
tiles, no overlap, two zoom levels (level 1: 24×12, level 0: 12×6);
tile pixels encode their tile coordinates and in-tile position. -/
def testImg : BImg ℤ where
  tile_width := 2
  tile_height := 2
  min_zoom := 0
  max_zoom := 1
  zoom_to_width := fun z => if z = 1 then some 24 else
    if z = 0 then some 12 else none
  zoom_to_height := fun z => if z = 1 then some 12 else
    if z = 0 then some 6 else none
  zooms := [1, 0]
  tile_start_x := fun t => 2 * t
  tile_start_y := fun t => 2 * t
  left_overlap := fun _ => 0
  top_overlap := fun _ => 0
  right_overlap := fun _ _ => 0
  bottom_overlap := fun _ _ => 0
  load_tile := fun tx ty _ =>
    ⟨2, 2, fun r c => 10000 * tx + 1000 * ty + 10 * r + c⟩
  zero := 0
  band_format := 1

/-- A concrete canvas whose pixels encode their coordinates. -/
def testPix : Canvas ℤ := fun y x => 100 * y + x

/-- A loaded state of `testImg` at zoom 0: 4×2 viewport at the origin,
no extra tiles, tile window x `[0,2)` and y `[0,1)`. -/
def testState : LoadedImageState ℤ where
  viewport_x := 0
  viewport_y := 0
  viewport_width := 4
  viewport_height := 2
  extra_tiles := 0
  zoom := 0
  zoomed_image_width := some 12
  zoomed_image_height := some 6
  canvas_x := 0
  canvas_y := 0
  canvas_width := 4
  canvas_height := 2
  tiles_across_in_canvas := 2
  tiles_down_in_canvas := 1
  tile_xstart := 0
  tile_ystart := 0
  tile_xend := 2
  tile_yend := 1
  viewport_x_on_fullimage := 0
  viewport_y_on_fullimage := 0
  pixels := some testPix

/-- A pyramid image with a large level 5 (10000×8000) and a small
level 0 (50×40), 128×128 tiles. -/
def fitImg : BImg ℤ where
  tile_width := 128
  tile_height := 128
  min_zoom := 0
  max_zoom := 5
  zoom_to_width := fun z => if z = 5 then some 10000 else
    if z = 0 then some 50 else none
  zoom_to_height := fun z => if z = 5 then some 8000 else
    if z = 0 then some 40 else none
  zooms := [5, 0]
  tile_start_x := fun t => 128 * t
  tile_start_y := fun t => 128 * t
  left_overlap := fun _ => 0
  top_overlap := fun _ => 0
  right_overlap := fun _ _ => 0
  bottom_overlap := fun _ _ => 0
  load_tile := fun _ _ _ => ⟨128, 128, fun _ _ => 0⟩
  zero := 0
  band_format := 1

/-- A state of `fitImg` previously loaded at zoom 5 with the viewport
at x = 1000, whose zoom was then set to -1 (fit to viewport) through
the zoom setter, as the front end does before calling `load_image`.
The canvas buffer is absent to keep the fixture small; `load_image`
recomputes it anyway. -/
def fitState : LoadedImageState ℤ where
  viewport_x := 0
  viewport_y := 0
  viewport_width := 500
  viewport_height := 300
  extra_tiles := 2
  zoom := -1
  zoomed_image_width := some 10000
  zoomed_image_height := some 8000
  canvas_x := 0
  canvas_y := 0
  canvas_width := 1024
  canvas_height := 896
  tiles_across_in_canvas := 8
  tiles_down_in_canvas := 7
  tile_xstart := 5
  tile_ystart := -2
  tile_xend := 13
  tile_yend := 5
  viewport_x_on_fullimage := 1000
  viewport_y_on_fullimage := 0
  pixels := none

/-- A non-overlapping tile geometry whose level-0 image is 7×7 with
10×10 tiles: a whole level smaller than one tile. -/
def liSmall : LIGeom := ⟨10, 10, fun _ => 7, fun _ => 7⟩

/-- A manifest whose Image tag has TileSize and Format but no Width or
Height attribute, and no Size element. -/
def dziMissingWidth : DziXml :=
  ⟨true, none, none, some (AttrVal.num 254), some (AttrVal.num 1),
   true, false, none, none⟩

end Fixtures

section ClaimsEasy

/-- Claim C9: `load_image` called while the viewport width or height is
0 returns immediately and leaves the whole engine state unchanged: no
canvas allocation, no tile fetch, zoom, viewport position and tile
window untouched. -/
theorem load_image_zero_viewport_noop {α : Type} (img : BImg α)
    (s : LoadedImageState α) (center : Option (ℤ × ℤ))
    (h : s.viewport_width = 0 ∨ s.viewport_height = 0) :
    load_image img s center = some s := by
  unfold load_image
  rw [if_pos h]

/-- Witness for C9 at a concrete state with zero viewport width. -/
theorem load_image_zero_viewport_noop_witness :
    load_image testImg { testState with viewport_width := 0 } none =
      some { testState with viewport_width := 0 } :=
  load_image_zero_viewport_noop testImg
    { testState with viewport_width := 0 } none (Or.inl rfl)

/-- Claim C7: `zoom_to` with a target zoom outside the available range
or equal to the current zoom returns `false` and leaves every piece of
engine state unchanged (the very same state is returned). -/
theorem zoom_to_noop_out_of_range {α : Type} (img : BImg α)
    (s : LoadedImageState α) (zoom centerx centery : ℤ)
    (h : zoom < img.min_zoom ∨ zoom > img.max_zoom ∨ zoom = s.zoom) :
    zoom_to img s zoom centerx centery = some (false, s) := by
  unfold zoom_to
  rw [if_pos h]

/-- Witness for C7: zoom 7 is above `testImg`'s maximum zoom 1. -/
theorem zoom_to_noop_out_of_range_witness :
    zoom_to testImg testState 7 3 3 = some (false, testState) :=
  zoom_to_noop_out_of_range testImg testState 7 3 3 (by decide)

/-- Claim C6: `zoom_to` with a target zoom inside the available range
and different from the current zoom converts the focus to full-image
coordinates by adding the viewport top-left, multiplies it by
2^(target − current) when zooming in and floor-divides it by
2^(current − target) when zooming out, sets the zoom to the target,
performs a full reload centered at the rescaled point, and returns
`true`. -/
theorem zoom_to_rescale_reload {α : Type} (img : BImg α)
    (s : LoadedImageState α) (zoom centerx centery : ℤ)
    (h1 : img.min_zoom ≤ zoom) (h2 : zoom ≤ img.max_zoom)
    (h3 : zoom ≠ s.zoom) :
    zoom_to img s zoom centerx centery =
      (load_image img { s with zoom := zoom }
        (some
          (if s.zoom < zoom then
            (centerx + s.viewport_x_on_fullimage) * 2 ^ (zoom - s.zoom).toNat
           else
            Int.fdiv (centerx + s.viewport_x_on_fullimage)
              (2 ^ (s.zoom - zoom).toNat),
           if s.zoom < zoom then
            (centery + s.viewport_y_on_fullimage) * 2 ^ (zoom - s.zoom).toNat
           else
            Int.fdiv (centery + s.viewport_y_on_fullimage)
              (2 ^ (s.zoom - zoom).toNat)))).map
        (fun st => (true, st)) := by
  unfold zoom_to
  rw [if_neg (by omega)]
  have hz : (0:ℤ) < zoom - s.zoom ↔ s.zoom < zoom := by omega
  have hneg : -(zoom - s.zoom) = s.zoom - zoom := by ring
  simp only [gt_iff_lt, hz, hneg]

/-- Witness for C6 at a concrete zoom-in from level 0 to level 1. -/
theorem zoom_to_rescale_reload_witness :
    zoom_to testImg testState 1 3 1 =
      (load_image testImg { testState with zoom := 1 }
        (some
          (if testState.zoom < 1 then
            (3 + testState.viewport_x_on_fullimage) *
              2 ^ ((1:ℤ) - testState.zoom).toNat
           else
            Int.fdiv (3 + testState.viewport_x_on_fullimage)
              (2 ^ (testState.zoom - 1).toNat),
           if testState.zoom < 1 then
            (1 + testState.viewport_y_on_fullimage) *
              2 ^ ((1:ℤ) - testState.zoom).toNat
           else
            Int.fdiv (1 + testState.viewport_y_on_fullimage)
              (2 ^ (testState.zoom - 1).toNat)))).map
        (fun st => (true, st)) :=
  zoom_to_rescale_reload testImg testState 1 3 1 (by decide) (by decide)
    (by decide)

/-- Claim C10: calling `to_qimage` before any canvas has been loaded
(`_pixels` still absent) returns an empty image with the zero rectangle
(0,0,0,0) instead of raising. -/
theorem to_qimage_no_pixels_empty {α : Type} (img : BImg α)
    (s : LoadedImageState α) (dtype_is_uint8 : Bool) (ndims channels : ℤ)
    (h : s.pixels = none) :
    to_qimage img s dtype_is_uint8 ndims channels =
      some (QImageModel.empty, ⟨0, 0, 0, 0⟩) := by
  unfold to_qimage
  rw [h]

/-- Witness for C10 at the concrete unloaded state. -/
theorem to_qimage_no_pixels_empty_witness :
    to_qimage fitImg fitState true 3 3 =
      some (QImageModel.empty, ⟨0, 0, 0, 0⟩) :=
  to_qimage_no_pixels_empty fitImg fitState true 3 3 rfl

end ClaimsEasy

section ClaimsAdapters

/-- Claim C8 (code bug): on a fresh `DZImage`, a manifest whose Image
tag carries TileSize and Format but no Width attribute and no Size
element makes `open` raise AttributeError, not FileFormatError: the
guard `if self._width is None` reads an attribute that was never
assigned. The code's own unreachable
`raise FileFormatError(Image tag contains no width)` branch shows
FileFormatError was the intent, as the claim states. -/
theorem dz_open_missing_width_attribute_error :
    dz_open_meta dziMissingWidth = Except.error PyErr.attributeError ∧
    dz_open_meta dziMissingWidth ≠ Except.error PyErr.fileFormatError := by
  constructor
  · rfl
  · simp [dz_open_meta, dziMissingWidth]

/-- Counterexample to claim C3 as stated: `LIImage.load_tile` never
raises FileFormatError on a dimension mismatch. On `liSmall` the
trimmed geometry of tile (0,0) at zoom 0 is 7×7, but a fetched 5×5
buffer is returned unchanged (its type has no error outcome at all),
so a buffer whose dimensions differ from the computed geometry is
silently tolerated. -/
theorem li_load_tile_mismatch_not_rejected :
    li_load_tile liSmall 0 0 0 5 5 = (5, 5) ∧
    li_tile_width_at_zoom liSmall 0 0 = 7 ∧
    li_tile_height_at_zoom liSmall 0 0 = 7 ∧ (5 : ℤ) ≠ 7 := by
  refine ⟨by decide, by decide, by decide, by decide⟩

/-- `LIImage` trimmed tile width never exceeds the tile width. -/
theorem li_tile_width_at_zoom_le (g : LIGeom) (tile zoom : ℤ) :
    li_tile_width_at_zoom g tile zoom ≤ g.tile_width := by
  simp only [li_tile_width_at_zoom, li_tile_end_x_plus_one, li_tile_start_x]
  split <;> omega

/-- `LIImage` trimmed tile height never exceeds the tile height. -/
theorem li_tile_height_at_zoom_le (g : LIGeom) (tile zoom : ℤ) :
    li_tile_height_at_zoom g tile zoom ≤ g.tile_height := by
  simp only [li_tile_height_at_zoom, li_tile_end_y_plus_one, li_tile_start_y]
  split <;> omega

/-- Claim C3, amended: on `DZImage`, `load_tile` returns the buffer
exactly when its dimensions equal the computed trimmed geometry and
raises FileFormatError on any mismatch. On `LIImage`, `load_tile`
raises nothing: when the backend returns either a full-tile-size buffer
or a buffer already of the expected (positive) trimmed dimensions, the
returned buffer has exactly the expected dimensions (full-size edge
tiles are sliced down), but other shapes are passed through unchecked. -/
theorem load_tile_dims_amended :
    (∀ (g : DZGeom) (tilex tiley zoom fetched_h fetched_w : ℤ),
      (fetched_w = dz_tile_width_at_zoom g tilex zoom ∧
          fetched_h = dz_tile_height_at_zoom g tiley zoom →
        dz_load_tile g tilex tiley zoom fetched_h fetched_w =
          Except.ok (fetched_h, fetched_w)) ∧
      (fetched_w ≠ dz_tile_width_at_zoom g tilex zoom ∨
          fetched_h ≠ dz_tile_height_at_zoom g tiley zoom →
        dz_load_tile g tilex tiley zoom fetched_h fetched_w =
          Except.error PyErr.fileFormatError)) ∧
    (∀ (g : LIGeom) (tilex tiley zoom : ℤ),
      0 < li_tile_width_at_zoom g tilex zoom →
      0 < li_tile_height_at_zoom g tiley zoom →
      li_load_tile g tilex tiley zoom g.tile_height g.tile_width =
        (li_tile_height_at_zoom g tiley zoom,
         li_tile_width_at_zoom g tilex zoom) ∧
      li_load_tile g tilex tiley zoom (li_tile_height_at_zoom g tiley zoom)
          (li_tile_width_at_zoom g tilex zoom) =
        (li_tile_height_at_zoom g tiley zoom,
         li_tile_width_at_zoom g tilex zoom)) := by
  constructor
  · intro g tilex tiley zoom fetched_h fetched_w
    constructor
    · rintro ⟨hw, hh⟩
      unfold dz_load_tile
      rw [if_neg]
      push_neg
      exact ⟨hw, hh⟩
    · intro h
      unfold dz_load_tile
      rw [if_pos h]
  · intro g tilex tiley zoom hw hh
    have hwle := li_tile_width_at_zoom_le g tilex zoom
    have hhle := li_tile_height_at_zoom_le g tiley zoom
    constructor
    · unfold li_load_tile
      by_cases hc : (g.tile_width = g.tile_width ∧
          li_tile_width_at_zoom g tilex zoom < g.tile_width) ∨
          (g.tile_height = g.tile_height ∧
          li_tile_height_at_zoom g tiley zoom < g.tile_height)
      · rw [if_pos hc]
        simp only [Prod.mk.injEq]
        omega
      · rw [if_neg hc]
        push_neg at hc
        have h1 := (hc.1 rfl)
        have h2 := (hc.2 rfl)
        simp only [Prod.mk.injEq]
        omega
    · unfold li_load_tile
      rw [if_neg]
      rintro (⟨h1, h2⟩ | ⟨h1, h2⟩) <;> omega

/-- Witness for the amended C3: a DZ tile with matching and mismatched
dimensions, and the LI small image receiving a full 10×10 buffer and a
trimmed 7×7 buffer, both yielding 7×7. -/
theorem load_tile_dims_amended_witness :
    dz_load_tile ⟨254, 254, 1, fun _ => 1000, fun _ => 1000⟩ 1 1 0 256 256 =
      Except.ok (256, 256) ∧
    dz_load_tile ⟨254, 254, 1, fun _ => 1000, fun _ => 1000⟩ 1 1 0 254 254 =
      Except.error PyErr.fileFormatError ∧
    li_load_tile liSmall 0 0 0 10 10 = (7, 7) ∧
    li_load_tile liSmall 0 0 0 7 7 = (7, 7) := by
  refine ⟨?_, ?_, ?_, ?_⟩
  · exact (load_tile_dims_amended.1 ⟨254, 254, 1, fun _ => 1000,
      fun _ => 1000⟩ 1 1 0 256 256).1 (by decide)
  · exact (load_tile_dims_amended.1 ⟨254, 254, 1, fun _ => 1000,
      fun _ => 1000⟩ 1 1 0 254 254).2 (by decide)
  · exact ((load_tile_dims_amended.2 liSmall 0 0 0 (by decide)
      (by decide)).1)
  · exact ((load_tile_dims_amended.2 liSmall 0 0 0 (by decide)
      (by decide)).2)

end ClaimsAdapters

section ClaimFit

/-- `fit_loop` ignores its accumulators and agrees with the spec scan
whenever every zoom in the (non-empty) remaining list has registered
dimensions. -/
theorem fit_loop_total (zw zh : ℤ → Option ℤ) (W H : ℤ → ℤ) (vw vh : ℤ) :
    ∀ (zs : List ℤ) (a b c : Option ℤ), zs ≠ [] →
    (∀ z ∈ zs, zw z = some (W z)) → (∀ z ∈ zs, zh z = some (H z)) →
    fit_loop zw zh vw vh zs a b c = fit_to_viewport_spec W H vw vh zs := by
  intro zs
  induction zs with
  | nil => intro a b c h; exact absurd rfl h
  | cons z rest ih =>
    intro a b c _ hW hH
    have hWz : zw z = some (W z) := hW z (List.mem_cons_self z rest)
    have hHz : zh z = some (H z) := hH z (List.mem_cons_self z rest)
    by_cases hfit : W z ≤ vw ∧ H z < vh
    · simp only [fit_loop, hWz, hHz, fit_to_viewport_spec, if_pos hfit]
    · cases rest with
      | nil =>
        simp only [fit_loop, hWz, hHz, fit_to_viewport_spec, if_neg hfit]
      | cons r rs =>
        simp only [fit_loop, hWz, hHz, fit_to_viewport_spec, if_neg hfit]
        exact ih (some z) (some (W z)) (some (H z)) (List.cons_ne_nil r rs)
          (fun u hu => hW u (List.mem_cons_of_mem z hu))
          (fun u hu => hH u (List.mem_cons_of_mem z hu))

/-- Claim C5: on a non-empty zoom list whose levels all have registered
dimensions, `fit_to_viewport` returns the first level (scanning from
most zoomed in to most zoomed out) whose width is ≤ the viewport width
and whose height is < the viewport height, with that level's
dimensions; if no level qualifies it returns the last level scanned —
the most zoomed out — with its dimensions, even when they exceed the
viewport. -/
theorem fit_to_viewport_first_fit_or_last (zooms : List ℤ)
    (zw zh : ℤ → Option ℤ) (W H : ℤ → ℤ) (vw vh : ℤ) (hne : zooms ≠ [])
    (hW : ∀ z ∈ zooms, zw z = some (W z))
    (hH : ∀ z ∈ zooms, zh z = some (H z)) :
    fit_to_viewport zooms zw zh vw vh =
      fit_to_viewport_spec W H vw vh zooms :=
  fit_loop_total zw zh W H vw vh zooms none none none hne hW hH

/-- Witness for C5 on `fitImg`'s registered levels: neither level 5 nor
level 0 fits a 30×20 viewport, so the scan falls through to the most
zoomed out level 0 with its 50×40 dimensions. -/
theorem fit_to_viewport_first_fit_or_last_witness :
    fit_to_viewport [5, 0] fitImg.zoom_to_width fitImg.zoom_to_height 30 20 =
      fit_to_viewport_spec (fun z => if z = 5 then 10000 else 50)
        (fun z => if z = 5 then 8000 else 40) 30 20 [5, 0] ∧
    fit_to_viewport_spec (fun z => if z = 5 then 10000 else 50)
        (fun z => if z = 5 then 8000 else 40) 30 20 [5, 0] =
      some (0, 50, 40) := by
  constructor
  · exact fit_to_viewport_first_fit_or_last [5, 0] fitImg.zoom_to_width
      fitImg.zoom_to_height (fun z => if z = 5 then 10000 else 50)
      (fun z => if z = 5 then 8000 else 40) 30 20 (by simp)
      (by intro z hz; fin_cases hz <;> decide)
      (by intro z hz; fin_cases hz <;> decide)
  · decide

end ClaimFit

section ScrollHelpers

/-- The two-step clamp of the code equals clipping into
`[0, zdim - vdim]` (with 0 winning when the interval is empty). -/
theorem clamp_pos_eq_clip (zdim vdim t : ℤ) :
    clamp_pos zdim vdim t = max 0 (min t (zdim - vdim)) := by
  simp only [clamp_pos]
  split_ifs <;> omega

/-- The clip block of `scroll_to` does not move an already clamped
position. -/
theorem scroll_clip_axis_fst_clamp (zdim vdim t : ℤ) :
    (scroll_clip_axis zdim vdim (clamp_pos zdim vdim t)).1 =
      clamp_pos zdim vdim t := by
  simp only [scroll_clip_axis, clamp_pos]
  split_ifs <;> omega

end ScrollHelpers

section ClaimScrollFalse

/-- Claim C2: on a loaded image (state consistent with its last load),
`scroll_to` returns `false` exactly when the tile window computed from
the clamped target — `x_to_tile` of the clamped top-left minus the
margin tiles, extended by the canvas tile counts — coincides with the
current tile window; in particular a call whose clamped target equals
the current viewport top-left returns `false`. -/
theorem scroll_to_false_iff_window_unchanged {α : Type} (img : BImg α)
    (s : LoadedImageState α) (tlx tly zw zh : ℤ) (pix : Canvas α)
    (Hzw : s.zoomed_image_width = some zw)
    (Hzh : s.zoomed_image_height = some zh)
    (Hpix : s.pixels = some pix)
    (Hix : s.tile_xstart =
      x_to_tile img.tile_width s.viewport_x_on_fullimage - s.extra_tiles)
    (Hiy : s.tile_ystart =
      y_to_tile img.tile_height s.viewport_y_on_fullimage - s.extra_tiles)
    (Hxe : s.tile_xend = s.tile_xstart + s.tiles_across_in_canvas)
    (Hye : s.tile_yend = s.tile_ystart + s.tiles_down_in_canvas) :
    ∃ b s2, scroll_to img s tlx tly = some (b, s2) ∧
      (b = false ↔
        (x_to_tile img.tile_width (clamp_pos zw s.viewport_width tlx)
            - s.extra_tiles = s.tile_xstart ∧
         y_to_tile img.tile_height (clamp_pos zh s.viewport_height tly)
            - s.extra_tiles = s.tile_ystart ∧
         x_to_tile img.tile_width (clamp_pos zw s.viewport_width tlx)
            - s.extra_tiles + s.tiles_across_in_canvas = s.tile_xend ∧
         y_to_tile img.tile_height (clamp_pos zh s.viewport_height tly)
            - s.extra_tiles + s.tiles_down_in_canvas = s.tile_yend)) ∧
      ((clamp_pos zw s.viewport_width tlx = s.viewport_x_on_fullimage ∧
        clamp_pos zh s.viewport_height tly = s.viewport_y_on_fullimage) →
        b = false) := by
  simp only [scroll_to, Hzw, Hzh]
  by_cases hearly : s.viewport_x_on_fullimage
      - clamp_pos zw s.viewport_width tlx = 0 ∧
      s.viewport_y_on_fullimage - clamp_pos zh s.viewport_height tly = 0
  · rw [if_pos hearly]
    refine ⟨false, s, rfl, ?_, fun _ => rfl⟩
    have hx : clamp_pos zw s.viewport_width tlx =
        s.viewport_x_on_fullimage := by omega
    have hy : clamp_pos zh s.viewport_height tly =
        s.viewport_y_on_fullimage := by omega
    rw [hx, hy]
    simp only [true_iff]
    refine ⟨Hix.symm, Hiy.symm, ?_, ?_⟩ <;> omega
  · rw [if_neg hearly]
    simp only [scroll_move, scroll_clip_axis_fst_clamp]
    by_cases hwin : x_to_tile img.tile_width
        (clamp_pos zw s.viewport_width tlx) - s.extra_tiles
          = s.tile_xstart ∧
        y_to_tile img.tile_height (clamp_pos zh s.viewport_height tly)
          - s.extra_tiles = s.tile_ystart ∧
        x_to_tile img.tile_width (clamp_pos zw s.viewport_width tlx)
          - s.extra_tiles + s.tiles_across_in_canvas = s.tile_xend ∧
        y_to_tile img.tile_height (clamp_pos zh s.viewport_height tly)
          - s.extra_tiles + s.tiles_down_in_canvas = s.tile_yend
    · rw [if_pos hwin]
      refine ⟨false, _, rfl, iff_of_true rfl hwin, fun _ => rfl⟩
    · rw [if_neg hwin]
      rw [Hpix]
      refine ⟨true, _, rfl, iff_of_false (by simp) hwin, ?_⟩
      intro hsame
      exact absurd (by omega) hearly

/-- Witness for C2: from `testState` a scroll whose clamped target (6,0)
moves the tile window, so the characterization applies there. -/
theorem scroll_to_false_iff_window_unchanged_witness :
    ∃ b s2, scroll_to testImg testState 6 0 = some (b, s2) ∧
      (b = false ↔
        (x_to_tile testImg.tile_width (clamp_pos 12 testState.viewport_width 6)
            - testState.extra_tiles = testState.tile_xstart ∧
         y_to_tile testImg.tile_height (clamp_pos 6 testState.viewport_height 0)
            - testState.extra_tiles = testState.tile_ystart ∧
         x_to_tile testImg.tile_width (clamp_pos 12 testState.viewport_width 6)
            - testState.extra_tiles + testState.tiles_across_in_canvas =
              testState.tile_xend ∧
         y_to_tile testImg.tile_height (clamp_pos 6 testState.viewport_height 0)
            - testState.extra_tiles + testState.tiles_down_in_canvas =
              testState.tile_yend)) ∧
      ((clamp_pos 12 testState.viewport_width 6 =
          testState.viewport_x_on_fullimage ∧
        clamp_pos 6 testState.viewport_height 0 =
          testState.viewport_y_on_fullimage) → b = false) :=
  scroll_to_false_iff_window_unchanged testImg testState 6 0 12 6 testPix
    rfl rfl rfl (by decide) (by decide) (by decide) (by decide)

end ClaimScrollFalse

section ClaimClamp

/-- With a concrete (non-fit) zoom and a non-empty viewport,
`load_image` stores the pre-clamp target clipped into
`[0, zoomedDim - viewportDim]` on both axes. -/
theorem load_image_clips {α : Type} (img : BImg α)
    (s : LoadedImageState α) (center : Option (ℤ × ℤ))
    (hz : s.zoom ≠ -1) (hvw : 0 < s.viewport_width)
    (hvh : 0 < s.viewport_height) :
    ∃ s2, load_image img s center = some s2 ∧
      s2.viewport_x_on_fullimage = max 0 (min (precenter_x s center)
        (image_width_for_zoom_t img s.zoom - s.viewport_width)) ∧
      s2.viewport_y_on_fullimage = max 0 (min (precenter_y s center)
        (image_height_for_zoom_t img s.zoom - s.viewport_height)) := by
  simp only [load_image]
  rw [if_neg (by omega), if_pos hz, if_pos hz, if_neg hz]
  refine ⟨_, rfl, ?_, ?_⟩ <;>
    · simp only
      split_ifs <;> omega

/-- `scroll_to` stores the target clipped into
`[0, zoomedDim - viewportDim]` on both axes (in every branch,
including the early no-movement return). -/
theorem scroll_to_clips {α : Type} (img : BImg α)
    (s : LoadedImageState α) (tlx tly zw zh : ℤ) (pix : Canvas α)
    (Hzw : s.zoomed_image_width = some zw)
    (Hzh : s.zoomed_image_height = some zh)
    (Hpix : s.pixels = some pix) :
    ∃ b s2, scroll_to img s tlx tly = some (b, s2) ∧
      s2.viewport_x_on_fullimage = clamp_pos zw s.viewport_width tlx ∧
      s2.viewport_y_on_fullimage = clamp_pos zh s.viewport_height tly := by
  simp only [scroll_to, Hzw, Hzh]
  by_cases hearly : s.viewport_x_on_fullimage
      - clamp_pos zw s.viewport_width tlx = 0 ∧
      s.viewport_y_on_fullimage - clamp_pos zh s.viewport_height tly = 0
  · rw [if_pos hearly]
    exact ⟨false, s, rfl, by omega, by omega⟩
  · rw [if_neg hearly]
    simp only [scroll_move, scroll_clip_axis_fst_clamp]
    by_cases hwin : x_to_tile img.tile_width
        (clamp_pos zw s.viewport_width tlx) - s.extra_tiles
          = s.tile_xstart ∧
        y_to_tile img.tile_height (clamp_pos zh s.viewport_height tly)
          - s.extra_tiles = s.tile_ystart ∧
        x_to_tile img.tile_width (clamp_pos zw s.viewport_width tlx)
          - s.extra_tiles + s.tiles_across_in_canvas = s.tile_xend ∧
        y_to_tile img.tile_height (clamp_pos zh s.viewport_height tly)
          - s.extra_tiles + s.tiles_down_in_canvas = s.tile_yend
    · rw [if_pos hwin]
      exact ⟨false, _, rfl, rfl, rfl⟩
    · rw [if_neg hwin]
      rw [Hpix]
      exact ⟨true, _, rfl, rfl, rfl⟩

/-- Claim C4, amended: after `scroll`, `scroll_to`, `zoom_to` and after
every `load_image` whose zoom is concrete (not the fit-to-viewport
sentinel -1), the stored viewport top-left is the pre-clamp target
clipped into `[0, zoomedDimension - viewportDimension]` per axis; hence
it is non-negative, `x + viewportWidth ≤ zoomedImageWidth` holds
whenever the zoomed image is at least as wide as the viewport, and the
position is 0 in an axis where the zoomed image is smaller than the
viewport. A fit-mode `load_image` (zoom = -1) clamps against the
pre-fit dimensions instead and can leave a stale position (see the
counterexample). -/
theorem viewport_position_clamped_amended :
    (∀ (α : Type) (img : BImg α) (s : LoadedImageState α)
      (center : Option (ℤ × ℤ)),
      s.zoom ≠ -1 → 0 < s.viewport_width → 0 < s.viewport_height →
      ∃ s2, load_image img s center = some s2 ∧
        s2.viewport_x_on_fullimage = max 0 (min (precenter_x s center)
          (image_width_for_zoom_t img s.zoom - s.viewport_width)) ∧
        s2.viewport_y_on_fullimage = max 0 (min (precenter_y s center)
          (image_height_for_zoom_t img s.zoom - s.viewport_height)) ∧
        0 ≤ s2.viewport_x_on_fullimage ∧ 0 ≤ s2.viewport_y_on_fullimage ∧
        (s.viewport_width ≤ image_width_for_zoom_t img s.zoom →
          s2.viewport_x_on_fullimage + s.viewport_width ≤
            image_width_for_zoom_t img s.zoom) ∧
        (image_width_for_zoom_t img s.zoom < s.viewport_width →
          s2.viewport_x_on_fullimage = 0) ∧
        (s.viewport_height ≤ image_height_for_zoom_t img s.zoom →
          s2.viewport_y_on_fullimage + s.viewport_height ≤
            image_height_for_zoom_t img s.zoom) ∧
        (image_height_for_zoom_t img s.zoom < s.viewport_height →
          s2.viewport_y_on_fullimage = 0)) ∧
    (∀ (α : Type) (img : BImg α) (s : LoadedImageState α)
      (tlx tly zw zh : ℤ) (pix : Canvas α),
      s.zoomed_image_width = some zw → s.zoomed_image_height = some zh →
      s.pixels = some pix →
      ∃ b s2, scroll_to img s tlx tly = some (b, s2) ∧
        s2.viewport_x_on_fullimage =
          max 0 (min tlx (zw - s.viewport_width)) ∧
        s2.viewport_y_on_fullimage =
          max 0 (min tly (zh - s.viewport_height)) ∧
        0 ≤ s2.viewport_x_on_fullimage ∧ 0 ≤ s2.viewport_y_on_fullimage ∧
        (s.viewport_width ≤ zw →
          s2.viewport_x_on_fullimage + s.viewport_width ≤ zw) ∧
        (zw < s.viewport_width → s2.viewport_x_on_fullimage = 0) ∧
        (s.viewport_height ≤ zh →
          s2.viewport_y_on_fullimage + s.viewport_height ≤ zh) ∧
        (zh < s.viewport_height → s2.viewport_y_on_fullimage = 0)) ∧
    (∀ (α : Type) (img : BImg α) (s : LoadedImageState α) (dx dy : ℤ),
      scroll img s dx dy = scroll_to img s
        (s.viewport_x_on_fullimage - dx) (s.viewport_y_on_fullimage - dy)) ∧
    (∀ (α : Type) (img : BImg α) (s : LoadedImageState α)
      (zoom centerx centery : ℤ),
      0 ≤ img.min_zoom → img.min_zoom ≤ zoom → zoom ≤ img.max_zoom →
      zoom ≠ s.zoom → 0 < s.viewport_width → 0 < s.viewport_height →
      ∃ s2, zoom_to img s zoom centerx centery = some (true, s2) ∧
        s2.viewport_x_on_fullimage = max 0 (min
          ((if s.zoom < zoom then
              (centerx + s.viewport_x_on_fullimage) * 2 ^ (zoom - s.zoom).toNat
            else Int.fdiv (centerx + s.viewport_x_on_fullimage)
              (2 ^ (s.zoom - zoom).toNat)) - Int.ediv s.viewport_width 2)
          (image_width_for_zoom_t img zoom - s.viewport_width)) ∧
        s2.viewport_y_on_fullimage = max 0 (min
          ((if s.zoom < zoom then
              (centery + s.viewport_y_on_fullimage) * 2 ^ (zoom - s.zoom).toNat
            else Int.fdiv (centery + s.viewport_y_on_fullimage)
              (2 ^ (s.zoom - zoom).toNat)) - Int.ediv s.viewport_height 2)
          (image_height_for_zoom_t img zoom - s.viewport_height))) := by
  refine ⟨?_, ?_, ?_, ?_⟩
  · intro α img s center hz hvw hvh
    obtain ⟨s2, heq, hx, hy⟩ := load_image_clips img s center hz hvw hvh
    exact ⟨s2, heq, hx, hy, by omega, by omega, by omega, by omega,
      by omega, by omega⟩
  · intro α img s tlx tly zw zh pix Hzw Hzh Hpix
    obtain ⟨b, s2, heq, hx, hy⟩ := scroll_to_clips img s tlx tly zw zh pix
      Hzw Hzh Hpix
    rw [clamp_pos_eq_clip] at hx hy
    exact ⟨b, s2, heq, hx, hy, by omega, by omega, by omega, by omega,
      by omega, by omega⟩
  · intro α img s dx dy
    rfl
  · intro α img s zoom centerx centery hmin h1 h2 h3 hvw hvh
    unfold zoom_to
    rw [if_neg (by omega)]
    have hz2 : ((0:ℤ) < zoom - s.zoom) ↔ s.zoom < zoom := by omega
    have hneg : -(zoom - s.zoom) = s.zoom - zoom := by ring
    simp only [gt_iff_lt, hz2, hneg]
    obtain ⟨s2, heq, hx, hy⟩ := load_image_clips img { s with zoom := zoom }
      (some (if s.zoom < zoom then
          (centerx + s.viewport_x_on_fullimage) * 2 ^ (zoom - s.zoom).toNat
        else Int.fdiv (centerx + s.viewport_x_on_fullimage)
          (2 ^ (s.zoom - zoom).toNat),
        if s.zoom < zoom then
          (centery + s.viewport_y_on_fullimage) * 2 ^ (zoom - s.zoom).toNat
        else Int.fdiv (centery + s.viewport_y_on_fullimage)
          (2 ^ (s.zoom - zoom).toNat)))
      (by simp only; omega) hvw hvh
    refine ⟨s2, ?_, ?_, ?_⟩
    · rw [heq]
      rfl
    · simpa [precenter_x] using hx
    · simpa [precenter_y] using hy

/-- Counterexample to claim C4 as stated: a fit-mode `load_image` on a
previously loaded state. `fitState` sits at x = 1000 from its zoom-5
load; with zoom set to -1, `load_image` clamps 1000 against the stale
10000-wide dimensions, then adopts the 50×40 fit level — leaving the
position at 1000 although the zoomed image (width 50) is now smaller
than the 500-wide viewport, so the stored position is neither 0 nor
the clip of the target into `[0, 50 - 500]`. -/
theorem load_image_fit_leaves_unclamped_position :
    (load_image fitImg fitState none).map
      (fun st => (st.viewport_x_on_fullimage, st.zoomed_image_width,
        st.viewport_width, st.zoom)) = some (1000, some 50, 500, 0) ∧
    (1000 : ℤ) ≠ max 0 (min fitState.viewport_x_on_fullimage (50 - 500)) ∧
    (1000 : ℤ) ≠ 0 := by
  refine ⟨by decide, by decide, by decide⟩

/-- Witness for the amended C4: the concrete conclusions at
`testState` (concrete zoom 0) for `load_image` with a center point and
for a `scroll_to` call. -/
theorem viewport_position_clamped_amended_witness :
    (∃ s2, load_image testImg testState (some (100, 100)) = some s2 ∧
      s2.viewport_x_on_fullimage = max 0 (min (precenter_x testState
        (some (100, 100))) (image_width_for_zoom_t testImg testState.zoom
          - testState.viewport_width)) ∧
      s2.viewport_y_on_fullimage = max 0 (min (precenter_y testState
        (some (100, 100))) (image_height_for_zoom_t testImg testState.zoom
          - testState.viewport_height)) ∧
      0 ≤ s2.viewport_x_on_fullimage ∧ 0 ≤ s2.viewport_y_on_fullimage ∧
      (testState.viewport_width ≤ image_width_for_zoom_t testImg
          testState.zoom →
        s2.viewport_x_on_fullimage + testState.viewport_width ≤
          image_width_for_zoom_t testImg testState.zoom) ∧
      (image_width_for_zoom_t testImg testState.zoom <
          testState.viewport_width → s2.viewport_x_on_fullimage = 0) ∧
      (testState.viewport_height ≤ image_height_for_zoom_t testImg
          testState.zoom →
        s2.viewport_y_on_fullimage + testState.viewport_height ≤
          image_height_for_zoom_t testImg testState.zoom) ∧
      (image_height_for_zoom_t testImg testState.zoom <
          testState.viewport_height → s2.viewport_y_on_fullimage = 0)) ∧
    (∃ b s2, scroll_to testImg testState 100 (-3) = some (b, s2) ∧
      s2.viewport_x_on_fullimage =
        max 0 (min 100 (12 - testState.viewport_width)) ∧
      s2.viewport_y_on_fullimage =
        max 0 (min (-3) (6 - testState.viewport_height)) ∧
      0 ≤ s2.viewport_x_on_fullimage ∧ 0 ≤ s2.viewport_y_on_fullimage ∧
      (testState.viewport_width ≤ 12 →
        s2.viewport_x_on_fullimage + testState.viewport_width ≤ 12) ∧
      (12 < testState.viewport_width → s2.viewport_x_on_fullimage = 0) ∧
      (testState.viewport_height ≤ 6 →
        s2.viewport_y_on_fullimage + testState.viewport_height ≤ 6) ∧
      (6 < testState.viewport_height → s2.viewport_y_on_fullimage = 0)) :=
  ⟨viewport_position_clamped_amended.1 ℤ testImg testState (some (100, 100))
      (by decide) (by decide) (by decide),
   viewport_position_clamped_amended.2.1 ℤ testImg testState 100 (-3) 12 6
      testPix rfl rfl rfl⟩

end ClaimClamp

section LoadTilesLemmas

/-- Membership in an integer range list. -/
theorem mem_int_range {a b x : ℤ} : x ∈ int_range a b ↔ a ≤ x ∧ x < b := by
  constructor
  · intro hx
    obtain ⟨i, hi, hix⟩ := List.mem_map.mp hx
    rw [List.mem_range] at hi
    omega
  · intro h
    refine List.mem_map.mpr ⟨(x - a).toNat, List.mem_range.mpr (by omega),
      ?_⟩
    show a + ((x - a).toNat : ℤ) = x
    omega

/-- Membership in a fold of appended blocks. -/
theorem mem_foldr_append {l : List ℤ} {f : ℤ → List (ℤ × ℤ)} {t : ℤ × ℤ} :
    t ∈ l.foldr (fun ty acc => f ty ++ acc) [] ↔ ∃ ty ∈ l, t ∈ f ty := by
  induction l with
  | nil => simp
  | cons z zs ih => simp [ih]

/-- Membership in the tile-coordinate list walked by `_load_tiles`. -/
theorem mem_tile_pairs {ys ye xs xe : ℤ} {t : ℤ × ℤ} :
    t ∈ tile_pairs ys ye xs xe ↔
      ys ≤ t.1 ∧ t.1 < ye ∧ xs ≤ t.2 ∧ t.2 < xe := by
  simp only [tile_pairs, mem_foldr_append, List.mem_map, mem_int_range]
  constructor
  · rintro ⟨ty, hty, tx, htx, rfl⟩
    exact ⟨hty.1, hty.2, htx.1, htx.2⟩
  · intro h
    exact ⟨t.1, ⟨h.1, h.2.1⟩, t.2, ⟨h.2.2.1, h.2.2.2⟩, rfl⟩

/-- A tile active against a skip window is in the tile grid. -/
theorem tile_active_none_of_some {α : Type} {img : BImg α} {zoom : ℤ}
    {w : ℤ × ℤ × ℤ × ℤ} {t : ℤ × ℤ}
    (h : tile_active img zoom (some w) t = true) :
    tile_active img zoom none t = true := by
  unfold tile_active at *
  split_ifs at * <;> simp_all

/-- A tile inside the skip window is not active. -/
theorem tile_not_active_of_skip {α : Type} {img : BImg α} {zoom : ℤ}
    {oxs oys oxe oye : ℤ} {t : ℤ × ℤ}
    (h1 : oys ≤ t.1) (h2 : t.1 < oye) (h3 : oxs ≤ t.2) (h4 : t.2 < oxe) :
    tile_active img zoom (some (oxs, oys, oxe, oye)) t = false := by
  unfold tile_active
  split_ifs <;> simp_all

/-- With `init_matrix = False` and a present canvas, the canvas
component of the `_load_tiles` fold is the pure rectangle-update fold. -/
theorem load_tiles_foldl_false_fst {α : Type} (img : BImg α)
    (zoom xs ys : ℤ) (skip : Option (ℤ × ℤ × ℤ × ℤ)) :
    ∀ (l : List (ℤ × ℤ)) (c : Canvas α) (fl : Bool) (fs : List (ℤ × ℤ)),
    (l.foldl (load_tiles_step img zoom xs ys false skip)
      (some c, fl, fs)).1 =
    some (apply_tiles img zoom xs ys skip l c) := by
  intro l
  induction l with
  | nil =>
    intro c fl fs
    simp [apply_tiles]
  | cons t ts ih =>
    intro c fl fs
    by_cases h : tile_active img zoom skip t
    · have hstep : load_tiles_step img zoom xs ys false skip
          (some c, fl, fs) t =
          (some (write_tile img zoom xs ys t c), fl, fs ++ [t]) := by
        simp [load_tiles_step, h]
      rw [List.foldl_cons, hstep, ih]
      unfold apply_tiles
      rw [List.foldl_cons, if_pos h]
    · have hstep : load_tiles_step img zoom xs ys false skip
          (some c, fl, fs) t = (some c, fl, fs) := by
        simp [load_tiles_step, h]
      rw [List.foldl_cons, hstep, ih]
      unfold apply_tiles
      rw [List.foldl_cons, if_neg h]

/-- The fetched-tile component of the `_load_tiles` fold is the list of
active tiles, regardless of the canvas state. -/
theorem load_tiles_foldl_fetched {α : Type} (img : BImg α)
    (zoom xs ys : ℤ) (init : Bool) (skip : Option (ℤ × ℤ × ℤ × ℤ)) :
    ∀ (l : List (ℤ × ℤ)) (c0 : Option (Canvas α)) (fl : Bool)
      (fs : List (ℤ × ℤ)),
    (l.foldl (load_tiles_step img zoom xs ys init skip) (c0, fl, fs)).2.2 =
    fs ++ l.filter (fun t => tile_active img zoom skip t) := by
  intro l
  induction l with
  | nil =>
    intro c0 fl fs
    simp
  | cons t ts ih =>
    intro c0 fl fs
    rw [List.foldl_cons]
    by_cases h : tile_active img zoom skip t
    · have h22 : (load_tiles_step img zoom xs ys init skip (c0, fl, fs)
          t).2.2 = fs ++ [t] := by
        simp [load_tiles_step, h]
      calc (ts.foldl (load_tiles_step img zoom xs ys init skip)
              (load_tiles_step img zoom xs ys init skip (c0, fl, fs) t)).2.2
          = (load_tiles_step img zoom xs ys init skip (c0, fl, fs) t).2.2 ++
              ts.filter (fun u => tile_active img zoom skip u) :=
            ih (load_tiles_step img zoom xs ys init skip (c0, fl, fs) t).1
              (load_tiles_step img zoom xs ys init skip (c0, fl, fs) t).2.1
              (load_tiles_step img zoom xs ys init skip (c0, fl, fs) t).2.2
        _ = fs ++ (t :: ts).filter (fun u => tile_active img zoom skip u) :=
            by rw [h22, List.filter_cons_of_pos h]
               simp
    · have hstep : load_tiles_step img zoom xs ys init skip (c0, fl, fs) t
          = (c0, fl, fs) := by
        simp [load_tiles_step, h]
      rw [hstep, ih, List.filter_cons_of_neg (by simp [h])]

/-- The fetched list of `_load_tiles` is the active sublist of the
walked window, for any incoming canvas. -/
theorem load_tiles_fetched_eq {α : Type} (img : BImg α)
    (zoom xs ys xe ye : ℤ) (init : Bool) (skip : Option (ℤ × ℤ × ℤ × ℤ))
    (c0 : Option (Canvas α)) :
    (load_tiles img zoom xs ys xe ye init skip c0).2 =
      (tile_pairs ys ye xs xe).filter
        (fun t => tile_active img zoom skip t) := by
  unfold load_tiles
  rw [load_tiles_foldl_fetched]
  simp

/-- A point untouched by every active tile of the list keeps its
canvas value across `apply_tiles`. -/
theorem apply_tiles_untouched {α : Type} (img : BImg α) (zoom xs ys : ℤ)
    (skip : Option (ℤ × ℤ × ℤ × ℤ)) :
    ∀ (l : List (ℤ × ℤ)) (c : Canvas α) (y x : ℤ),
    (∀ t ∈ l, tile_active img zoom skip t = true →
      ¬ tile_region img zoom xs ys t y x) →
    apply_tiles img zoom xs ys skip l c y x = c y x := by
  intro l
  induction l with
  | nil =>
    intro c y x _
    simp [apply_tiles]
  | cons t ts ih =>
    intro c y x h
    by_cases ha : tile_active img zoom skip t
    · simp only [apply_tiles, List.foldl_cons, if_pos ha]
      have hnr := h t (List.mem_cons_self t ts) ha
      have : write_tile img zoom xs ys t c y x = c y x := by
        unfold write_tile
        rw [if_neg hnr]
      calc apply_tiles img zoom xs ys skip ts
            (write_tile img zoom xs ys t c) y x
          = write_tile img zoom xs ys t c y x :=
            ih (write_tile img zoom xs ys t c) y x
              (fun u hu => h u (List.mem_cons_of_mem t hu))
        _ = c y x := this
    · simp only [apply_tiles, List.foldl_cons, if_neg ha]
      exact ih c y x (fun u hu => h u (List.mem_cons_of_mem t hu))

/-- A canvas value that every remaining active writer of the point
would rewrite identically is stable across `apply_tiles`. -/
theorem apply_tiles_stable {α : Type} (img : BImg α) (zoom xs ys : ℤ)
    (skip : Option (ℤ × ℤ × ℤ × ℤ)) :
    ∀ (l : List (ℤ × ℤ)) (c : Canvas α) (y x : ℤ) (v : α),
    c y x = v →
    (∀ t ∈ l, tile_active img zoom skip t = true →
      tile_region img zoom xs ys t y x →
      tile_value img zoom xs ys t y x = v) →
    apply_tiles img zoom xs ys skip l c y x = v := by
  intro l
  induction l with
  | nil =>
    intro c y x v hc _
    simpa [apply_tiles] using hc
  | cons t ts ih =>
    intro c y x v hc h
    by_cases ha : tile_active img zoom skip t
    · simp only [apply_tiles, List.foldl_cons, if_pos ha]
      refine ih (write_tile img zoom xs ys t c) y x v ?_
        (fun u hu => h u (List.mem_cons_of_mem t hu))
      unfold write_tile
      split_ifs with hr
      · exact h t (List.mem_cons_self t ts) ha hr
      · exact hc
    · simp only [apply_tiles, List.foldl_cons, if_neg ha]
      exact ih c y x v hc (fun u hu => h u (List.mem_cons_of_mem t hu))

/-- If an active tile of the list covers the point, and it is the only
active tile of the list covering it, the final canvas value at the
point is that tile's source pixel. -/
theorem apply_tiles_value {α : Type} (img : BImg α) (zoom xs ys : ℤ)
    (skip : Option (ℤ × ℤ × ℤ × ℤ)) :
    ∀ (l : List (ℤ × ℤ)) (c : Canvas α) (y x : ℤ) (t0 : ℤ × ℤ),
    t0 ∈ l → tile_active img zoom skip t0 = true →
    tile_region img zoom xs ys t0 y x →
    (∀ t ∈ l, tile_active img zoom skip t = true →
      tile_region img zoom xs ys t y x → t = t0) →
    apply_tiles img zoom xs ys skip l c y x =
      tile_value img zoom xs ys t0 y x := by
  intro l
  induction l with
  | nil =>
    intro c y x t0 hmem
    exact absurd hmem (List.not_mem_nil t0)
  | cons t ts ih =>
    intro c y x t0 hmem ha0 hr0 huniq
    by_cases heq : t = t0
    · subst heq
      simp only [apply_tiles, List.foldl_cons, if_pos ha0]
      refine apply_tiles_stable img zoom xs ys skip ts
        (write_tile img zoom xs ys t c) y x _ ?_ ?_
      · unfold write_tile
        rw [if_pos hr0]
      · intro u hu hau hru
        rw [huniq u (List.mem_cons_of_mem t hu) hau hru]
    · have hmem2 : t0 ∈ ts := by
        rcases List.mem_cons.mp hmem with h | h
        · exact absurd h.symm heq
        · exact h
      by_cases ha : tile_active img zoom skip t
      · simp only [apply_tiles, List.foldl_cons, if_pos ha]
        have hwr : write_tile img zoom xs ys t c y x = c y x := by
          unfold write_tile
          rw [if_neg]
          intro hr
          exact heq (huniq t (List.mem_cons_self t ts) ha hr)
        have := ih (write_tile img zoom xs ys t c) y x t0 hmem2 ha0 hr0
          (fun u hu => huniq u (List.mem_cons_of_mem t hu))
        simpa [apply_tiles] using this
      · simp only [apply_tiles, List.foldl_cons, if_neg ha]
        exact ih c y x t0 hmem2 ha0 hr0
          (fun u hu => huniq u (List.mem_cons_of_mem t hu))

/-- Two tile slots of width `tw` containing the same point have the
same index. -/
theorem int_slot_eq {tw a b x : ℤ} (htw : 0 < tw) (ha1 : tw * a ≤ x)
    (ha2 : x < tw * a + tw) (hb1 : tw * b ≤ x) (hb2 : x < tw * b + tw) :
    a = b := by
  have hab : a ≤ b := by
    by_contra hcon
    push_neg at hcon
    have h1 : tw * (b + 1) ≤ tw * a :=
      mul_le_mul_of_nonneg_left (by omega) (le_of_lt htw)
    have h2 : tw * (b + 1) = tw * b + tw := by ring
    omega
  have hba : b ≤ a := by
    by_contra hcon
    push_neg at hcon
    have h1 : tw * (a + 1) ≤ tw * b :=
      mul_le_mul_of_nonneg_left (by omega) (le_of_lt htw)
    have h2 : tw * (a + 1) = tw * a + tw := by ring
    omega
  omega

end LoadTilesLemmas

section ScrollCanvas

/-- Activity against a skip window splits into grid membership and
being outside the skip window. -/
theorem tile_active_some_iff {α : Type} {img : BImg α} {zoom : ℤ}
    {w : ℤ × ℤ × ℤ × ℤ} {t : ℤ × ℤ} :
    tile_active img zoom (some w) t = true ↔
      tile_active img zoom none t = true ∧
      ¬(w.2.1 ≤ t.1 ∧ t.1 < w.2.2.2 ∧ w.1 ≤ t.2 ∧ t.2 < w.2.2.1) := by
  unfold tile_active
  split_ifs <;> simp_all <;> omega

/-- Wrapper: with `init_matrix = False` and a present canvas, the
canvas returned by `_load_tiles` is the pure rectangle-update fold. -/
theorem load_tiles_false_some {α : Type} (img : BImg α)
    (zoom xs ys xe ye : ℤ) (skip : Option (ℤ × ℤ × ℤ × ℤ))
    (c : Canvas α) :
    (load_tiles img zoom xs ys xe ye false skip (some c)).1 =
      some (apply_tiles img zoom xs ys skip (tile_pairs ys ye xs xe) c) := by
  unfold load_tiles
  rw [load_tiles_foldl_false_fst]

/-- Per-axis arithmetic of the in-place canvas shift: a tile slot kept
by both windows lies inside the copied rectangle, and the copy's source
offset maps the slot to its old position. -/
theorem axis_dest_bounds {tw T oxs nxs tx c el er : ℤ} (htw : 0 < tw)
    (h1 : oxs ≤ tx) (h2 : tx < oxs + T) (h3 : nxs ≤ tx) (h4 : tx < nxs + T)
    (hc0 : 0 ≤ c) (hc1 : c < tw)
    (Her : er = if nxs > oxs then nxs - oxs else 0)
    (Hel : el = if nxs + T < oxs + T then oxs + T - (nxs + T) else 0) :
    tw * el ≤ tw * (tx - nxs) + c ∧
    tw * (tx - nxs) + c < tw * el + (T * tw - tw * (el + er)) ∧
    tw * (tx - nxs) + c - tw * el + tw * er = tw * (tx - oxs) + c := by
  have hel2 : el = max 0 (oxs - nxs) := by
    rw [Hel]
    split_ifs <;> omega
  have her2 : er = max 0 (nxs - oxs) := by
    rw [Her]
    split_ifs <;> omega
  have k1 : tw * el ≤ tw * (tx - nxs) :=
    mul_le_mul_of_nonneg_left (by omega) htw.le
  have k2 : tw * (tx - nxs + 1) ≤ tw * (T - er) :=
    mul_le_mul_of_nonneg_left (by omega) htw.le
  have h5 : er - el = nxs - oxs := by omega
  refine ⟨by linarith, ?_, by linear_combination tw * h5⟩
  have e1 : tw * (tx - nxs + 1) = tw * (tx - nxs) + tw := by ring
  have e2 : tw * (T - er) = T * tw - tw * er := by ring
  have e3 : tw * el + (T * tw - tw * (el + er)) = T * tw - tw * er := by
    ring
  linarith

/-- The canvas effect of the tile-window shift in `scroll_to`: after
the in-place translation of the retained rectangle and the skip-aware
tile reload, (a) every tile slot present in both the old window
`[oxs, oxs+T) × [oys, oys+Td)` and the new window holds exactly the
pre-scroll pixels of its old slot, and (b) every in-grid tile of the
new window outside the old one holds its source pixels. -/
theorem scroll_canvas_spec {α : Type} (img : BImg α) (zoom : ℤ)
    (oxs oys T Td nxs nys W Hc er eb el et : ℤ) (pix shifted : Canvas α)
    (htw : 0 < img.tile_width) (hth : 0 < img.tile_height)
    (HW : W = T * img.tile_width) (HH : Hc = Td * img.tile_height)
    (Her : er = if nxs > oxs then nxs - oxs else 0)
    (Heb : eb = if nys > oys then nys - oys else 0)
    (Hel : el = if nxs + T < oxs + T then oxs + T - (nxs + T) else 0)
    (Het : et = if nys + Td < oys + Td then oys + Td - (nys + Td) else 0)
    (Hgeo : ∀ t : ℤ × ℤ, tile_active img zoom none t = true →
      (img.load_tile t.2 t.1 zoom).width - img.right_overlap t.2 zoom -
        img.left_overlap t.2 ≤ img.tile_width ∧
      (img.load_tile t.2 t.1 zoom).height - img.bottom_overlap t.1 zoom -
        img.top_overlap t.1 ≤ img.tile_height)
    (Hshift : ∀ y x, shifted y x =
      if img.tile_height * et ≤ y ∧
          y < img.tile_height * et + (Hc - img.tile_height * (et + eb)) ∧
          img.tile_width * el ≤ x ∧
          x < img.tile_width * el + (W - img.tile_width * (el + er)) then
        pix (y - img.tile_height * et + img.tile_height * eb)
          (x - img.tile_width * el + img.tile_width * er)
      else pix y x) :
    (∀ tx ty r c : ℤ,
      oxs ≤ tx → tx < oxs + T → oys ≤ ty → ty < oys + Td →
      nxs ≤ tx → tx < nxs + T → nys ≤ ty → ty < nys + Td →
      0 ≤ r → r < img.tile_height → 0 ≤ c → c < img.tile_width →
      apply_tiles img zoom nxs nys (some (oxs, oys, oxs + T, oys + Td))
          (tile_pairs nys (nys + Td) nxs (nxs + T)) shifted
          (img.tile_height * (ty - nys) + r)
          (img.tile_width * (tx - nxs) + c) =
        pix (img.tile_height * (ty - oys) + r)
          (img.tile_width * (tx - oxs) + c)) ∧
    (∀ tx ty r c : ℤ,
      nxs ≤ tx → tx < nxs + T → nys ≤ ty → ty < nys + Td →
      ¬(oxs ≤ tx ∧ tx < oxs + T ∧ oys ≤ ty ∧ ty < oys + Td) →
      tile_active img zoom none (ty, tx) = true →
      0 ≤ r → r < (img.load_tile tx ty zoom).height -
        img.bottom_overlap ty zoom - img.top_overlap ty →
      0 ≤ c → c < (img.load_tile tx ty zoom).width -
        img.right_overlap tx zoom - img.left_overlap tx →
      apply_tiles img zoom nxs nys (some (oxs, oys, oxs + T, oys + Td))
          (tile_pairs nys (nys + Td) nxs (nxs + T)) shifted
          (img.tile_height * (ty - nys) + r)
          (img.tile_width * (tx - nxs) + c) =
        (img.load_tile tx ty zoom).pix (img.top_overlap ty + r)
          (img.left_overlap tx + c)) := by
  constructor
  · intro tx ty r c ho1 ho2 ho3 ho4 hn1 hn2 hn3 hn4 hr0 hr1 hc0 hc1
    have huntouched : apply_tiles img zoom nxs nys
        (some (oxs, oys, oxs + T, oys + Td))
        (tile_pairs nys (nys + Td) nxs (nxs + T)) shifted
        (img.tile_height * (ty - nys) + r)
        (img.tile_width * (tx - nxs) + c) =
        shifted (img.tile_height * (ty - nys) + r)
          (img.tile_width * (tx - nxs) + c) := by
      refine apply_tiles_untouched img zoom nxs nys _ _ shifted _ _ ?_
      intro t ht ha hr
      simp only [tile_region] at hr
      obtain ⟨hry1, hry2, hrx1, hrx2⟩ := hr
      have hgeo := Hgeo t (tile_active_none_of_some ha)
      have hx2 : t.2 - nxs = tx - nxs := by
        refine int_slot_eq htw hrx1 (by linarith [hgeo.1]) ?_ ?_
        · linarith
        · linarith
      have hy2 : t.1 - nys = ty - nys := by
        refine int_slot_eq hth hry1 (by linarith [hgeo.2]) ?_ ?_
        · linarith
        · linarith
      have ht12 : t = (ty, tx) := by
        have e1 : t.1 = ty := by omega
        have e2 : t.2 = tx := by omega
        exact Prod.ext e1 e2
      rw [ht12] at ha
      have hf := @tile_not_active_of_skip α img zoom oxs oys (oxs + T)
        (oys + Td) ((ty, tx) : ℤ × ℤ) (by simpa using ho3)
        (by simpa using ho4) (by simpa using ho1) (by simpa using ho2)
      rw [ha] at hf
      exact Bool.noConfusion hf
    have bx := @axis_dest_bounds img.tile_width T oxs nxs tx c el er
      htw ho1 ho2 hn1 hn2 hc0 hc1 Her Hel
    have byy := @axis_dest_bounds img.tile_height Td oys nys ty r et eb
      hth ho3 ho4 hn3 hn4 hr0 hr1 Heb Het
    rw [huntouched, Hshift, if_pos ⟨byy.1, by rw [HH]; exact byy.2.1,
      bx.1, by rw [HW]; exact bx.2.1⟩]
    rw [show img.tile_height * (ty - nys) + r - img.tile_height * et +
      img.tile_height * eb = img.tile_height * (ty - oys) + r from
      byy.2.2, show img.tile_width * (tx - nxs) + c -
      img.tile_width * el + img.tile_width * er =
      img.tile_width * (tx - oxs) + c from bx.2.2]
  · intro tx ty r c hn1 hn2 hn3 hn4 hnold hgrid hr0 hr1 hc0 hc1
    have hgeo0 := Hgeo (ty, tx) hgrid
    have hactive : tile_active img zoom
        (some (oxs, oys, oxs + T, oys + Td)) ((ty, tx) : ℤ × ℤ) = true := by
      refine tile_active_some_iff.mpr ⟨hgrid, ?_⟩
      simp only
      omega
    have hregion : tile_region img zoom nxs nys ((ty, tx) : ℤ × ℤ)
        (img.tile_height * (ty - nys) + r)
        (img.tile_width * (tx - nxs) + c) := by
      simp only [tile_region]
      refine ⟨by linarith, by linarith, by linarith, by linarith⟩
    have hval := apply_tiles_value img zoom nxs nys
      (some (oxs, oys, oxs + T, oys + Td))
      (tile_pairs nys (nys + Td) nxs (nxs + T)) shifted
      (img.tile_height * (ty - nys) + r)
      (img.tile_width * (tx - nxs) + c) ((ty, tx) : ℤ × ℤ)
      (mem_tile_pairs.mpr ⟨hn3, hn4, hn1, hn2⟩) hactive hregion ?_
    · rw [hval]
      unfold tile_value
      rw [show img.tile_height * (ty - nys) + r -
        img.tile_height * (((ty, tx) : ℤ × ℤ).1 - nys) = r from by ring,
        show img.tile_width * (tx - nxs) + c -
        img.tile_width * (((ty, tx) : ℤ × ℤ).2 - nxs) = c from by ring]
    · intro t ht ha hr
      simp only [tile_region] at hr
      obtain ⟨hry1, hry2, hrx1, hrx2⟩ := hr
      have hgeo := Hgeo t (tile_active_none_of_some ha)
      have hx2 : t.2 - nxs = tx - nxs := by
        refine int_slot_eq htw hrx1 (by linarith [hgeo.1]) ?_ ?_
        · linarith
        · linarith [hgeo0.1]
      have hy2 : t.1 - nys = ty - nys := by
        refine int_slot_eq hth hry1 (by linarith [hgeo.2]) ?_ ?_
        · linarith
        · linarith [hgeo0.2]
      exact Prod.ext (by omega) (by omega)

end ScrollCanvas

section ClaimScrollPixels

/-- Claim C1: whenever `scroll_to` on a loaded image returns `true`,
the new canvas holds, for every tile present in both the old and the
new tile window, exactly the pre-scroll pixels of that tile's old slot
(the slot moved in place by the tile-size multiple of the window
shift); every in-grid tile newly in the window holds that tile's
source pixels bit-for-bit (overlap trimmed); and no tile of the old
window is fetched again by the reload. -/
theorem scroll_to_shift_preserves_and_loads {α : Type} (img : BImg α)
    (s : LoadedImageState α) (tlx tly zw zh : ℤ) (pix : Canvas α)
    (htw : 0 < img.tile_width) (hth : 0 < img.tile_height)
    (Hzw : s.zoomed_image_width = some zw)
    (Hzh : s.zoomed_image_height = some zh)
    (Hpix : s.pixels = some pix)
    (Hxe : s.tile_xend = s.tile_xstart + s.tiles_across_in_canvas)
    (Hye : s.tile_yend = s.tile_ystart + s.tiles_down_in_canvas)
    (Hcw : s.canvas_width = s.tiles_across_in_canvas * img.tile_width)
    (Hch : s.canvas_height = s.tiles_down_in_canvas * img.tile_height)
    (Hgeo : ∀ t : ℤ × ℤ, tile_active img s.zoom none t = true →
      (img.load_tile t.2 t.1 s.zoom).width -
        img.right_overlap t.2 s.zoom - img.left_overlap t.2 ≤
        img.tile_width ∧
      (img.load_tile t.2 t.1 s.zoom).height -
        img.bottom_overlap t.1 s.zoom - img.top_overlap t.1 ≤
        img.tile_height)
    (H1 : (scroll_to img s tlx tly).map Prod.fst = some true) :
    ∃ s2 pixF, scroll_to img s tlx tly = some (true, s2) ∧
      s2.pixels = some pixF ∧
      (∀ tx ty r c : ℤ,
        s.tile_xstart ≤ tx → tx < s.tile_xend →
        s.tile_ystart ≤ ty → ty < s.tile_yend →
        s2.tile_xstart ≤ tx → tx < s2.tile_xend →
        s2.tile_ystart ≤ ty → ty < s2.tile_yend →
        0 ≤ r → r < img.tile_height → 0 ≤ c → c < img.tile_width →
        pixF (img.tile_height * (ty - s2.tile_ystart) + r)
            (img.tile_width * (tx - s2.tile_xstart) + c) =
          pix (img.tile_height * (ty - s.tile_ystart) + r)
            (img.tile_width * (tx - s.tile_xstart) + c)) ∧
      (∀ tx ty r c : ℤ,
        s2.tile_xstart ≤ tx → tx < s2.tile_xend →
        s2.tile_ystart ≤ ty → ty < s2.tile_yend →
        ¬(s.tile_xstart ≤ tx ∧ tx < s.tile_xend ∧
          s.tile_ystart ≤ ty ∧ ty < s.tile_yend) →
        tile_active img s.zoom none ((ty, tx) : ℤ × ℤ) = true →
        0 ≤ r → r < (img.load_tile tx ty s.zoom).height -
          img.bottom_overlap ty s.zoom - img.top_overlap ty →
        0 ≤ c → c < (img.load_tile tx ty s.zoom).width -
          img.right_overlap tx s.zoom - img.left_overlap tx →
        pixF (img.tile_height * (ty - s2.tile_ystart) + r)
            (img.tile_width * (tx - s2.tile_xstart) + c) =
          (img.load_tile tx ty s.zoom).pix (img.top_overlap ty + r)
            (img.left_overlap tx + c)) ∧
      (∀ (tx ty : ℤ) (c0 : Option (Canvas α)),
        s.tile_xstart ≤ tx → tx < s.tile_xend →
        s.tile_ystart ≤ ty → ty < s.tile_yend →
        ((ty, tx) : ℤ × ℤ) ∉
          (load_tiles img s.zoom s2.tile_xstart s2.tile_ystart
            s2.tile_xend s2.tile_yend false
            (some (s.tile_xstart, s.tile_ystart, s.tile_xend,
              s.tile_yend)) c0).2) := by
  simp only [scroll_to, Hzw, Hzh] at H1 ⊢
  by_cases hearly : s.viewport_x_on_fullimage
      - clamp_pos zw s.viewport_width tlx = 0 ∧
      s.viewport_y_on_fullimage - clamp_pos zh s.viewport_height tly = 0
  · rw [if_pos hearly] at H1
    simp at H1
  · rw [if_neg hearly] at H1 ⊢
    simp only [scroll_move, scroll_clip_axis_fst_clamp] at H1 ⊢
    by_cases hwin : x_to_tile img.tile_width
        (clamp_pos zw s.viewport_width tlx) - s.extra_tiles
          = s.tile_xstart ∧
        y_to_tile img.tile_height (clamp_pos zh s.viewport_height tly)
          - s.extra_tiles = s.tile_ystart ∧
        x_to_tile img.tile_width (clamp_pos zw s.viewport_width tlx)
          - s.extra_tiles + s.tiles_across_in_canvas = s.tile_xend ∧
        y_to_tile img.tile_height (clamp_pos zh s.viewport_height tly)
          - s.extra_tiles + s.tiles_down_in_canvas = s.tile_yend
    · rw [if_pos hwin] at H1
      simp at H1
    · rw [if_neg hwin] at H1 ⊢
      clear H1
      rw [Hpix, Hxe, Hye]
      refine ⟨_, _, rfl, load_tiles_false_some img s.zoom _ _ _ _ _ _,
        ?_, ?_, ?_⟩
      · intro tx ty r c h1 h2 h3 h4 h5 h6 h7 h8 h9 h10 h11 h12
        exact (scroll_canvas_spec img s.zoom s.tile_xstart s.tile_ystart
          s.tiles_across_in_canvas s.tiles_down_in_canvas _ _
          s.canvas_width s.canvas_height _ _ _ _ pix _
          htw hth Hcw Hch rfl rfl rfl rfl Hgeo (fun y x => rfl)).1
          tx ty r c h1 h2 h3 h4 h5 h6 h7 h8 h9 h10 h11 h12
      · intro tx ty r c h1 h2 h3 h4 h5 h6 h7 h8 h9 h10
        exact (scroll_canvas_spec img s.zoom s.tile_xstart s.tile_ystart
          s.tiles_across_in_canvas s.tiles_down_in_canvas _ _
          s.canvas_width s.canvas_height _ _ _ _ pix _
          htw hth Hcw Hch rfl rfl rfl rfl Hgeo (fun y x => rfl)).2
          tx ty r c h1 h2 h3 h4 h5 h6 h7 h8 h9 h10
      · intro tx ty c0 h1 h2 h3 h4
        rw [load_tiles_fetched_eq]
        intro hmem
        obtain ⟨_, hact⟩ := List.mem_filter.mp hmem
        have hf := @tile_not_active_of_skip α img s.zoom s.tile_xstart
          s.tile_ystart (s.tile_xstart + s.tiles_across_in_canvas)
          (s.tile_ystart + s.tiles_down_in_canvas) ((ty, tx) : ℤ × ℤ)
          (by simpa using h3) (by simpa using h4) (by simpa using h1)
          (by simpa using h2)
        exact Bool.noConfusion (hact.symm.trans hf)

/-- Witness for C1: scrolling `testState` to x = 2 shifts the tile
window from `[0,2)×[0,1)` to `[1,3)×[0,1)` and returns `true`; the
characterization applies there. -/
theorem scroll_to_shift_preserves_and_loads_witness :
    ∃ s2 pixF, scroll_to testImg testState 2 0 = some (true, s2) ∧
      s2.pixels = some pixF ∧
      (∀ tx ty r c : ℤ,
        testState.tile_xstart ≤ tx → tx < testState.tile_xend →
        testState.tile_ystart ≤ ty → ty < testState.tile_yend →
        s2.tile_xstart ≤ tx → tx < s2.tile_xend →
        s2.tile_ystart ≤ ty → ty < s2.tile_yend →
        0 ≤ r → r < testImg.tile_height → 0 ≤ c → c < testImg.tile_width →
        pixF (testImg.tile_height * (ty - s2.tile_ystart) + r)
            (testImg.tile_width * (tx - s2.tile_xstart) + c) =
          testPix (testImg.tile_height * (ty - testState.tile_ystart) + r)
            (testImg.tile_width * (tx - testState.tile_xstart) + c)) ∧
      (∀ tx ty r c : ℤ,
        s2.tile_xstart ≤ tx → tx < s2.tile_xend →
        s2.tile_ystart ≤ ty → ty < s2.tile_yend →
        ¬(testState.tile_xstart ≤ tx ∧ tx < testState.tile_xend ∧
          testState.tile_ystart ≤ ty ∧ ty < testState.tile_yend) →
        tile_active testImg testState.zoom none ((ty, tx) : ℤ × ℤ) = true →
        0 ≤ r → r < (testImg.load_tile tx ty testState.zoom).height -
          testImg.bottom_overlap ty testState.zoom -
          testImg.top_overlap ty →
        0 ≤ c → c < (testImg.load_tile tx ty testState.zoom).width -
          testImg.right_overlap tx testState.zoom -
          testImg.left_overlap tx →
        pixF (testImg.tile_height * (ty - s2.tile_ystart) + r)
            (testImg.tile_width * (tx - s2.tile_xstart) + c) =
          (testImg.load_tile tx ty testState.zoom).pix
            (testImg.top_overlap ty + r) (testImg.left_overlap tx + c)) ∧
      (∀ (tx ty : ℤ) (c0 : Option (Canvas ℤ)),
        testState.tile_xstart ≤ tx → tx < testState.tile_xend →
        testState.tile_ystart ≤ ty → ty < testState.tile_yend →
        ((ty, tx) : ℤ × ℤ) ∉
          (load_tiles testImg testState.zoom s2.tile_xstart s2.tile_ystart
            s2.tile_xend s2.tile_yend false
            (some (testState.tile_xstart, testState.tile_ystart,
              testState.tile_xend, testState.tile_yend)) c0).2) :=
  scroll_to_shift_preserves_and_loads testImg testState 2 0 12 6 testPix
    (by decide) (by decide) rfl rfl rfl (by decide) (by decide)
    (by decide) (by decide)
    (by
      intro t _
      constructor <;> simp [testImg])
    (by decide)

end ClaimScrollPixels

end Bigimageviewer
